import Mathlib

/-!
Verification of the reconciliation core of the pair repository.

This file gives a shallow embedding, in Lean, of the data model and of the
sync/reconciliation operations of the repository (packages
`pkg/database`, `pkg/tracker` and `pkg/appcore`), and proves or refutes the
frozen claims about them.

Modelling conventions, used throughout and noted again at each definition:
- Go `time.Time` is modelled as an integer instant (`Time := Int`); the Go
  zero time is `0`, `t.After(u)` is `t > u`, and `t.IsZero()` is `t = 0`.
  Each store-mutating pass takes a parameter `now : Time` standing for the
  value of `time.Now()` / SQL `CURRENT_TIMESTAMP` sampled during that pass
  (the source samples the clock at each write; the model uses one sample
  per pass, which is enough for every claim considered).
- Go `float64` fields (score, episode progress) are modelled as rationals;
  the concrete values appearing anywhere in this development (half
  episodes, 0..10 scores) are exactly representable as binary floats, and
  the only numeric operation performed on them by the source, conversion
  to `int`, agrees with rational truncation toward zero on such values.
- The SQLite store is modelled as a pure value (`Store`); store reads that
  can fail return `Except DBErr`, and the identity of the error value is
  preserved because the source compares errors with `==`/`!=`
  (`sql.ErrNoRows` versus `database.ErrAnimeNotFound`), and that comparison
  decides control flow in the sync code.
- The per-tracker watermark config row (`mal_last_sync`) is held in the
  store as `Option Time`: `none` models the absent row (for which
  `GetConfig` returns `""`), and the RFC3339 string codec used by the
  source is modelled as the time value itself (the source only ever parses
  strings it has itself formatted).
-/

namespace Pair

/-- Go `time.Time` as an integer instant. Zero value is `0`. -/
abbrev Time := Int

/-- Embedding of `tracker.SyncStats` (pkg/tracker/tracker.go:89). The
detail strings are kept but their printf arguments (error texts, numeric
values) are abstracted to the entry title. -/
structure SyncStats where
  added : Nat
  updated : Nat
  deleted : Nat
  skipped : Nat
  errors : Nat
  details : List String
deriving DecidableEq, Repr

/-- Value of `SyncStats{Details: []string{}}`, the stats every pass starts
from. -/
def SyncStats.start : SyncStats := ⟨0, 0, 0, 0, 0, []⟩

/-- Embedding of `tracker.UserAnimeEntry` (pkg/tracker/tracker.go:77),
flattened together with the fields of the embedded `AnimeInfo` that the
sync code reads. `status` is the watch status (the Go `Status` string
type), `animeStatus` the `AnimeInfo.Status` string. -/
structure UserAnimeEntry where
  id : String
  title : String
  englishTitle : String
  japaneseTitle : String
  alternativeTitles : List String
  synopsis : String
  type : String
  animeStatus : String
  episodes : Int
  season : String
  year : Int
  genres : List String
  imageURL : String
  status : String
  score : ℚ
  progress : ℚ
  lastUpdated : Time
deriving DecidableEq, Repr

/-- Embedding of `database.Anime` (pkg/database/anime.go:17) restricted to
the fields the sync code writes and reads (`CreatedAt`/`UpdatedAt` are
never read by the reconciliation code and are omitted). -/
structure Anime where
  id : Int
  title : String
  originalTitle : String
  alternativeTitles : List String
  description : String
  totalEpisodes : Int
  type : String
  year : Int
  season : String
  status : String
  genres : List String
  thumbnailURL : String
deriving DecidableEq, Repr

/-- Embedding of `database.AnimeTracking` (pkg/database/anime.go:35). -/
structure AnimeTracking where
  id : Int
  animeId : Int
  tracker : String
  trackerId : String
  status : String
  score : ℚ
  currentEpisode : ℚ
  totalEpisodes : Int
  lastUpdated : Time
deriving DecidableEq, Repr

/-- Store read errors whose identity the sync code inspects:
`sql.ErrNoRows` and `database.ErrAnimeNotFound`
(pkg/database/anime.go:12). The distinction is load-bearing:
`MALTracker.SyncFromRemote` treats every error other than `sql.ErrNoRows`
as a per-item error, while `database.GetAnimeByExternalID` reports a
missing row as `ErrAnimeNotFound`. -/
inductive DBErr where
  | noRows
  | animeNotFound
deriving DecidableEq, Repr

/-- Pure model of the SQLite store: the `anime` and `anime_tracking`
tables (as row lists in insertion order), the autoincrement counters, and
the `mal_last_sync` config row (`none` = row absent). -/
structure Store where
  nextAnimeId : Int
  nextTrackingId : Int
  anime : List Anime
  trackings : List AnimeTracking
  malLastSync : Option Time
deriving DecidableEq, Repr

/-- Embedding of `DB.GetAnime` (pkg/database/anime.go:643): row lookup by
primary key, `ErrAnimeNotFound` when absent. -/
def GetAnime (s : Store) (id : Int) : Except DBErr Anime :=
  match s.anime.find? (fun a => decide (a.id = id)) with
  | some a => .ok a
  | none => .error .animeNotFound

/-- Embedding of `DB.GetAnimeTracking` (pkg/database/anime.go:284): single
row by `(anime_id, tracker)`; the raw `sql.ErrNoRows` escapes when the row
is absent. -/
def GetAnimeTracking (s : Store) (animeId : Int) (tracker : String) :
    Except DBErr AnimeTracking :=
  match s.trackings.find? (fun t => decide (t.animeId = animeId ∧ t.tracker = tracker)) with
  | some t => .ok t
  | none => .error .noRows

/-- Embedding of `DB.GetAnimeByExternalID` (pkg/database/anime.go:540):
find the tracking row by `(tracker, tracker_id)`, then load its anime; a
missing tracking row is reported as `ErrAnimeNotFound`, never as
`sql.ErrNoRows`. -/
def GetAnimeByExternalID (s : Store) (externalID tracker : String) :
    Except DBErr Anime :=
  match s.trackings.find? (fun t => decide (t.tracker = tracker ∧ t.trackerId = externalID)) with
  | some t => GetAnime s t.animeId
  | none => .error .animeNotFound

/-- Embedding of `DB.GetAllAnimeTrackingByTracker`
(pkg/database/anime.go:561). -/
def GetAllAnimeTrackingByTracker (s : Store) (tracker : String) :
    List AnimeTracking :=
  s.trackings.filter (fun t => decide (t.tracker = tracker))

/-- Embedding of `DB.GetAllAnimeTracking` (pkg/database/anime.go:307). -/
def GetAllAnimeTracking (s : Store) (animeId : Int) : List AnimeTracking :=
  s.trackings.filter (fun t => decide (t.animeId = animeId))

/-- Embedding of `DB.AddAnime` (pkg/database/anime.go:75): plain INSERT
with an autoincrement id, returned to the caller (Go writes it back into
`anime.ID`). -/
def AddAnime (s : Store) (a : Anime) : Store × Int :=
  let id := s.nextAnimeId
  ({ s with
      nextAnimeId := id + 1,
      anime := s.anime ++ [{ a with id := id }] }, id)

/-- Field update shared by the conflict arm of `DB.AddAnimeTracking` and
by `DB.UpdateAnimeTrackingObject`: copy `tracker_id`, `status`, `score`,
`current_episode` and `total_episodes` from `t` into the stored row, and
stamp `last_updated` with the write time. -/
def writeTrackingFields (t : AnimeTracking) (now : Time) (u : AnimeTracking) :
    AnimeTracking :=
  { u with
      trackerId := t.trackerId,
      status := t.status,
      score := t.score,
      currentEpisode := t.currentEpisode,
      totalEpisodes := t.totalEpisodes,
      lastUpdated := now }

/-- Embedding of `DB.AddAnimeTracking` (pkg/database/anime.go:253): upsert
keyed on `(anime_id, tracker)`. Both the insert arm and the conflict arm
of the SQL write `last_updated = CURRENT_TIMESTAMP` (the `now` parameter),
not the `LastUpdated` field of the argument. -/
def AddAnimeTracking (s : Store) (t : AnimeTracking) (now : Time) : Store :=
  if s.trackings.any (fun u => decide (u.animeId = t.animeId ∧ u.tracker = t.tracker)) then
    { s with trackings := s.trackings.map (fun u =>
        if u.animeId = t.animeId ∧ u.tracker = t.tracker then writeTrackingFields t now u
        else u) }
  else
    { s with
        nextTrackingId := s.nextTrackingId + 1,
        trackings := s.trackings ++
          [{ t with id := s.nextTrackingId, lastUpdated := now }] }

/-- Embedding of `DB.UpdateAnimeTrackingObject` (database, part_001:106):
UPDATE by row id. The SQL writes `last_updated = time.Now()` (the `now`
parameter), not the `LastUpdated` field of the argument. -/
def UpdateAnimeTrackingObject (s : Store) (t : AnimeTracking) (now : Time) : Store :=
  { s with trackings := s.trackings.map (fun u =>
      if u.id = t.id then writeTrackingFields t now u
      else u) }

/-- Embedding of `DB.DeleteAnimeTracking` (pkg/database/anime.go:339). -/
def DeleteAnimeTracking (s : Store) (animeId : Int) (tracker : String) : Store :=
  { s with trackings :=
      s.trackings.filter (fun t => !(decide (t.animeId = animeId ∧ t.tracker = tracker))) }

/-- Embedding of `DB.DeleteAnime` (pkg/database/anime.go:247). The schema
declares `ON DELETE CASCADE` but the connection never enables the SQLite
`foreign_keys` pragma, so only the anime row itself is removed. -/
def DeleteAnime (s : Store) (id : Int) : Store :=
  { s with anime := s.anime.filter (fun a => !(decide (a.id = id))) }

/-- Truncation of a Go `float64` to `int`, as in `int(episode)`:
rounding toward zero. -/
def goInt (q : ℚ) : Int := if q < 0 then -((-q).floor) else q.floor

/-- Mapping from the internal `Status` string to the MAL API status, the
`switch` of `MALTracker.UpdateAnimeStatus` (pkg/tracker/mal.go:735) with
its `"watching"` default. -/
def malStatusOf (status : String) : String :=
  match status with
  | "completed" => "completed"
  | "on_hold" => "on_hold"
  | "dropped" => "dropped"
  | "plan_to_watch" => "plan_to_watch"
  | _ => "watching"

/-- Form parameters built by `MALTracker.UpdateAnimeStatus`
(pkg/tracker/mal.go:732): `status` always, `num_watched_episodes` only
when `episode > 0`, `score` only when `score > 0`. -/
def malUpdateParams (status : String) (episode score : ℚ) : List (String × String) :=
  [("status", malStatusOf status)]
    ++ (if episode > 0 then [("num_watched_episodes", toString (goInt episode))] else [])
    ++ (if score > 0 then [("score", toString (goInt score))] else [])

/-- Mapping from the internal `Status` string to the Anilist status, the
`switch` of `AnilistTracker.UpdateAnimeStatus` (pkg/tracker/anilist.go:880)
with its `"CURRENT"` default. -/
def anilistStatusOf (status : String) : String :=
  match status with
  | "completed" => "COMPLETED"
  | "on_hold" => "PAUSED"
  | "dropped" => "DROPPED"
  | "plan_to_watch" => "PLANNING"
  | _ => "CURRENT"

/-- Dynamic values placed in the GraphQL variables map. -/
inductive GoVal where
  | int (n : Int)
  | str (v : String)
  | rat (v : ℚ)
deriving DecidableEq, Repr

/-- GraphQL variables built by `AnilistTracker.UpdateAnimeStatus`
(pkg/tracker/anilist.go:905): `mediaId` and `status` always, `progress`
only when `episode > 0` (truncated to int), `score` only when
`score > 0`. -/
def anilistUpdateVariables (mediaId : Int) (status : String) (episode score : ℚ) :
    List (String × GoVal) :=
  [("mediaId", .int mediaId), ("status", .str (anilistStatusOf status))]
    ++ (if episode > 0 then [("progress", .int (goInt episode))] else [])
    ++ (if score > 0 then [("score", .rat score)] else [])

/-- Accumulation of decimal digits, most significant first. -/
def natOfDigits (cs : List Char) : Nat :=
  cs.foldl (fun n c => n * 10 + (c.toNat - Char.toNat (Char.ofNat 48))) 0

/-- Model of `fmt.Sscanf(id, "%d", &animeID)` with the zero default when
nothing parses (part_000:413). The ids the program feeds it are the
decimal renderings `fmt.Sprintf of anime.ID`, so the model reads an
optionally signed all-digit string and yields 0 otherwise. -/
def goSscanfInt (s : String) : Int :=
  match s.data with
  | '-' :: cs => if cs ≠ [] ∧ cs.all Char.isDigit then -(natOfDigits cs : Int) else 0
  | cs => if cs ≠ [] ∧ cs.all Char.isDigit then (natOfDigits cs : Int) else 0

/-- Embedding of `LocalTracker.UpdateAnimeStatus` (part_000:411). On a
missing row (`sql.ErrNoRows`, the only read error in the model) a fresh
tracking entry is created from the arguments; on an existing row, status
is always overwritten while episode and score are only overwritten when
strictly positive. -/
def LocalTracker.UpdateAnimeStatus (st : Store) (id status : String)
    (episode score : ℚ) (now : Time) : Store :=
  let animeID := goSscanfInt id
  match GetAnimeTracking st animeID "local" with
  | .error _ =>
      AddAnimeTracking st ⟨0, animeID, "local", id, status, score, episode, 0, now⟩ now
  | .ok tracking =>
      UpdateAnimeTrackingObject st
        { tracking with
            status := status,
            currentEpisode := if episode > 0 then episode else tracking.currentEpisode,
            score := if score > 0 then score else tracking.score } now

/-- Field overwrite performed on an existing tracking row when the remote
entry is newer (pkg/tracker/mal.go:877-881): status, score, progress,
total episodes and timestamp are copied from the remote entry into the
in-memory object before it is handed to `UpdateAnimeTrackingObject`. -/
def pullPatch (entry : UserAnimeEntry) (u : AnimeTracking) : AnimeTracking :=
  { u with
      status := entry.status,
      score := entry.score,
      currentEpisode := entry.progress,
      totalEpisodes := entry.episodes,
      lastUpdated := entry.lastUpdated }

/-- Loop body of `MALTracker.SyncFromRemote` (pkg/tracker/mal.go:793-896),
processing one remote entry against the store. The error comparison is
the source's `err != sql.ErrNoRows`; since `GetAnimeByExternalID` reports
a missing row as `ErrAnimeNotFound`, the `anime == nil` add branch below
it is unreachable (kept to mirror the source). -/
def malSyncFromRemoteStep (now : Time) (acc : Store × SyncStats)
    (entry : UserAnimeEntry) : Store × SyncStats :=
  let s := acc.1
  let stats := acc.2
  match GetAnimeByExternalID s entry.id "mal" with
  | .error e =>
    if e ≠ DBErr.noRows then
      (s,
       { stats with
          errors := stats.errors + 1,
          details := stats.details ++ ["Error checking anime " ++ entry.title] })
    else
      let animeData : Anime := ⟨0, entry.title, entry.japaneseTitle,
        entry.alternativeTitles, entry.synopsis, entry.episodes, entry.type,
        entry.year, entry.season, entry.status, entry.genres, entry.imageURL⟩
      let r := AddAnime s animeData
      let tracking : AnimeTracking := ⟨0, r.2, "mal", entry.id, entry.status,
        entry.score, entry.progress, entry.episodes, entry.lastUpdated⟩
      (AddAnimeTracking r.1 tracking now,
       { stats with
          added := stats.added + 1,
          details := stats.details ++ ["Added anime: " ++ entry.title] })
  | .ok anime =>
    match GetAnimeTracking s anime.id "mal" with
    | .error e =>
      if e ≠ DBErr.noRows then
        (s,
         { stats with
            errors := stats.errors + 1,
            details := stats.details ++ ["Error checking tracking for " ++ entry.title] })
      else
        let tracking : AnimeTracking := ⟨0, anime.id, "mal", entry.id, entry.status,
          entry.score, entry.progress, entry.episodes, entry.lastUpdated⟩
        (AddAnimeTracking s tracking now,
         { stats with
            added := stats.added + 1,
            details := stats.details ++ ["Added tracking for: " ++ entry.title] })
    | .ok tracking =>
      if entry.lastUpdated > tracking.lastUpdated then
        (UpdateAnimeTrackingObject s (pullPatch entry tracking) now,
         { stats with
            updated := stats.updated + 1,
            details := stats.details ++ ["Updated tracking for: " ++ entry.title] })
      else
        (s, { stats with skipped := stats.skipped + 1 })

/-- Embedding of `MALTracker.SyncFromRemote` (pkg/tracker/mal.go:782),
with the already-fetched remote snapshot passed as `entries`. After the
loop the pass writes the `mal_last_sync` watermark with the current
time. -/
def MALTracker.SyncFromRemote (s : Store) (entries : List UserAnimeEntry)
    (now : Time) : Store × SyncStats :=
  let r := entries.foldl (malSyncFromRemoteStep now) (s, SyncStats.start)
  ({ r.1 with malLastSync := some now }, r.2)

/-- Normalization of a stored status string to the `Status` enum, the
`switch` in `MALTracker.SyncToRemote` (pkg/tracker/mal.go:940) with the
`StatusWatching` default. -/
def statusFromDB (s : String) : String :=
  match s with
  | "completed" => "completed"
  | "on_hold" => "on_hold"
  | "dropped" => "dropped"
  | "plan_to_watch" => "plan_to_watch"
  | _ => "watching"

/-- Record of one `UpdateAnimeStatus` invocation issued against a remote
tracker. -/
structure PushCall where
  id : String
  status : String
  episode : ℚ
  score : ℚ
deriving DecidableEq, Repr

/-- Call issued for one tracking row by the `MALTracker.SyncToRemote`
loop: `UpdateAnimeStatus(tracking.TrackerID, status, CurrentEpisode,
Score)` (pkg/tracker/mal.go:955). -/
def pushCallOf (tracking : AnimeTracking) : PushCall :=
  ⟨tracking.trackerId, statusFromDB tracking.status,
    tracking.currentEpisode, tracking.score⟩

/-- Condition under which the push loop skips a row
(pkg/tracker/mal.go:934): the watermark is set and the row is not
strictly newer than it. -/
def skipCond (wm : Time) (t : AnimeTracking) : Bool :=
  decide (wm ≠ 0 ∧ ¬ t.lastUpdated > wm)

/-- Loop body of `MALTracker.SyncToRemote` (pkg/tracker/mal.go:932-963):
skip when the watermark is set and the record is not strictly newer,
otherwise attempt the push; a failing push counts an error, a succeeding
one counts an update. `remoteFails` is the oracle for per-call remote
failure; every attempted call (failing or not) is recorded. -/
def malSyncToRemoteStep (lastSync : Time) (remoteFails : PushCall → Bool)
    (acc : SyncStats × List PushCall) (tracking : AnimeTracking) :
    SyncStats × List PushCall :=
  let stats := acc.1
  let calls := acc.2
  if lastSync ≠ 0 ∧ ¬ (tracking.lastUpdated > lastSync) then
    ({ stats with skipped := stats.skipped + 1 }, calls)
  else
    let call : PushCall := pushCallOf tracking
    if remoteFails call then
      ({ stats with
          errors := stats.errors + 1,
          details := stats.details ++ ["Failed to update anime " ++ tracking.trackerId ++ " on MAL"] },
       calls ++ [call])
    else
      ({ stats with
          updated := stats.updated + 1,
          details := stats.details ++ ["Updated anime " ++ tracking.trackerId ++ " on MAL"] },
       calls ++ [call])

/-- Embedding of `MALTracker.SyncToRemote` (pkg/tracker/mal.go:907). The
watermark read models `GetConfig` returning `""` for a missing row (zero
time, `getD 0`); after the loop the watermark is set to the current time
regardless of per-item errors. -/
def MALTracker.SyncToRemote (s : Store) (remoteFails : PushCall → Bool)
    (now : Time) : Store × SyncStats × List PushCall :=
  let lastSync : Time := s.malLastSync.getD 0
  let trackings := GetAllAnimeTrackingByTracker s "mal"
  let r := trackings.foldl (malSyncToRemoteStep lastSync remoteFails) (SyncStats.start, [])
  ({ s with malLastSync := some now }, r.1, r.2)

/-- Lookup in the Go map `localTrackingMap` built in
`syncWithSingleTracker` (pkg/appcore/implementMenu.go:448): keyed by
`TrackerID`; a later row with the same key overwrites an earlier one, so
the lookup returns the last matching snapshot row. -/
def mapLookupLast (snapshot : List AnimeTracking) (k : String) : Option AnimeTracking :=
  snapshot.reverse.find? (fun t => decide (t.trackerId = k))

/-- Membership test for the Go map `remoteEntriesMap`
(pkg/appcore/implementMenu.go:436), keyed by remote entry ID. -/
def remoteHas (entries : List UserAnimeEntry) (k : String) : Bool :=
  entries.any (fun e => decide (e.id = k))

/-- Embedding of `App.syncExistingEntry` (pkg/appcore/implementMenu.go:530).
Returns the new store and the list of `UpdateAnimeStatus` calls pushed to
the remote tracker. `snapshot` is the pass-start tracking list from which
`localTrackingMap` was built. -/
def syncExistingEntry (s : Store) (anime : Anime) (remoteEntry : UserAnimeEntry)
    (trackerName : String) (snapshot : List AnimeTracking) (now : Time) :
    Store × List PushCall :=
  match mapLookupLast snapshot remoteEntry.id with
  | none =>
      (AddAnimeTracking s ⟨0, anime.id, trackerName, remoteEntry.id,
        remoteEntry.status, remoteEntry.score, remoteEntry.progress,
        remoteEntry.episodes, remoteEntry.lastUpdated⟩ now, [])
  | some localTracking =>
      if remoteEntry.lastUpdated > localTracking.lastUpdated then
        (AddAnimeTracking s ⟨0, anime.id, trackerName, remoteEntry.id,
          remoteEntry.status, remoteEntry.score, remoteEntry.progress,
          remoteEntry.episodes, remoteEntry.lastUpdated⟩ now, [])
      else if localTracking.lastUpdated > remoteEntry.lastUpdated ∧
          localTracking.currentEpisode > remoteEntry.progress then
        (s, [⟨remoteEntry.id, localTracking.status, localTracking.currentEpisode,
          localTracking.score⟩])
      else
        (s, [])

/-- Embedding of `App.processRemoteEntry` (pkg/appcore/implementMenu.go:476).
Unlike `MALTracker.SyncFromRemote`, this caller compares the lookup error
against `database.ErrAnimeNotFound`, so the add branch is reachable here. -/
def processRemoteEntry (s : Store) (entry : UserAnimeEntry) (trackerName : String)
    (snapshot : List AnimeTracking) (now : Time) : Store × List PushCall :=
  match GetAnimeByExternalID s entry.id trackerName with
  | .error e =>
      if e ≠ DBErr.animeNotFound then (s, [])
      else
        let animeData : Anime := ⟨0, entry.title, entry.englishTitle,
          entry.alternativeTitles, entry.synopsis, entry.episodes, entry.type,
          entry.year, entry.season, entry.status, entry.genres, entry.imageURL⟩
        let r := AddAnime s animeData
        (AddAnimeTracking r.1 ⟨0, r.2, trackerName, entry.id, entry.status,
          entry.score, entry.progress, entry.episodes, entry.lastUpdated⟩ now, [])
  | .ok anime => syncExistingEntry s anime entry trackerName snapshot now

/-- Embedding of `App.deleteLocalEntry` (pkg/appcore/implementMenu.go:579):
delete the tracking row, then cascade-delete the anime when no tracking
from any tracker remains. -/
def deleteLocalEntry (s : Store) (localTracking : AnimeTracking)
    (trackerName : String) : Store :=
  let s1 := DeleteAnimeTracking s localTracking.animeId trackerName
  if (GetAllAnimeTracking s1 localTracking.animeId).length = 0 then
    DeleteAnime s1 localTracking.animeId
  else s1

/-- Entries of the Go map `localTrackingMap`: for each distinct key, the
last snapshot row carrying it. -/
def mapEntries (snapshot : List AnimeTracking) : List AnimeTracking :=
  snapshot.filter (fun t => decide (mapLookupLast snapshot t.trackerId = some t))

/-- Embedding of `App.syncWithSingleTracker`
(pkg/appcore/implementMenu.go:428): process every remote entry against the
store, then delete every pass-start local tracking row whose external ID
the remote snapshot no longer contains. Go iterates `localTrackingMap` in
unspecified map order; the model iterates its entries in snapshot order
(under the uniqueness invariants assumed by the theorems the per-entry
deletions commute, so the order does not affect the final store). -/
def syncWithSingleTracker (s : Store) (trackerName : String)
    (remoteEntries : List UserAnimeEntry) (now : Time) : Store × List PushCall :=
  let snapshot := GetAllAnimeTrackingByTracker s trackerName
  let r := remoteEntries.foldl (fun acc e =>
      let p := processRemoteEntry acc.1 e trackerName snapshot now
      (p.1, acc.2 ++ p.2)) (s, ([] : List PushCall))
  let s2 := (mapEntries snapshot).foldl (fun st t =>
      if remoteHas remoteEntries t.trackerId then st
      else deleteLocalEntry st t trackerName) r.1
  (s2, r.2)

/-- State of `tracker.SyncManager` (part_000:481) as seen by sequential
`Start`/`Stop` calls: the `isRunning` flag together with the number of
live `syncLoop` goroutines. -/
structure SyncManager where
  isRunning : Bool
  activeLoops : Nat
deriving DecidableEq, Repr

/-- Embedding of `NewSyncManager` (part_000:489): not running, no loop. -/
def SyncManager.new : SyncManager := ⟨false, 0⟩

/-- Embedding of `SyncManager.Start` (part_000:498): a guard on
`isRunning`, then `go s.syncLoop()` spawns one loop. -/
def SyncManager.Start (s : SyncManager) : SyncManager :=
  if s.isRunning then s
  else { isRunning := true, activeLoops := s.activeLoops + 1 }

/-- Embedding of `SyncManager.Stop` (part_000:508): a guard on
`isRunning`, then a send on `stopCh` that the loop receives at its next
`select`, making it return. The boolean result records whether a stop
signal was delivered; the loop count drops when it was. -/
def SyncManager.Stop (s : SyncManager) : SyncManager × Bool :=
  if !s.isRunning then (s, false)
  else ({ isRunning := false, activeLoops := s.activeLoops - 1 }, true)

/-- View of one registered tracker as `TrackerManager.SyncAllFromRemote`
consumes it: its name, its `IsAuthenticated()` answer, and the outcome of
its `SyncFromRemote` pass. -/
structure FanTracker where
  name : String
  isAuthenticated : Bool
  syncResult : Except String SyncStats

/-- Recursion of `TrackerManager.SyncAllFromRemote`
(pkg/tracker/tracker.go:157) over the iteration order of the tracker map:
unauthenticated trackers are skipped; an error return makes the function
return immediately with the stats collected so far. `executed` records the
trackers whose pass was invoked. -/
def SyncAllFromRemoteAux (acc : List (String × SyncStats)) (executed : List String) :
    List FanTracker → List (String × SyncStats) × List String × Option String
  | [] => (acc, executed, none)
  | t :: rest =>
    if ¬ t.isAuthenticated then SyncAllFromRemoteAux acc executed rest
    else
      match t.syncResult with
      | .error e =>
          (acc, executed ++ [t.name], some ("failed to sync from " ++ t.name ++ ": " ++ e))
      | .ok st => SyncAllFromRemoteAux (acc ++ [(t.name, st)]) (executed ++ [t.name]) rest

/-- Embedding of `TrackerManager.SyncAllFromRemote`
(pkg/tracker/tracker.go:157). Go iterates `m.trackers` (a map) in
unspecified order; `trackers` is one iteration order. -/
def TrackerManager.SyncAllFromRemote (trackers : List FanTracker) :
    List (String × SyncStats) × List String × Option String :=
  SyncAllFromRemoteAux [] [] trackers

/-- Invariant tying the `isRunning` flag of the scheduler to the number of
live loops: exactly one loop while running, none while stopped. It holds
for `NewSyncManager` and is preserved by `Start` and `Stop`. -/
def SchedInv (s : SyncManager) : Prop :=
  s.activeLoops = (if s.isRunning then 1 else 0)

/-- Well-formedness used by the deletion theorem: the tracking rows of one
tracker carry pairwise distinct external IDs. -/
def UniqueExternalIDs (s : Store) (tr : String) : Prop :=
  ((GetAllAnimeTrackingByTracker s tr).map (fun t => t.trackerId)).Nodup

/-- Well-formedness used by the deletion theorem: every anime row is
referenced by at least one tracking row (no pre-existing orphans). -/
def NoOrphanAnime (s : Store) : Prop :=
  ∀ a ∈ s.anime, ∃ t ∈ s.trackings, t.animeId = a.id

/-- Names of the trackers a fan-out run actually invoked, in order: the
authenticated ones. -/
def executedOf (l : List FanTracker) : List String :=
  (l.filter (fun t => t.isAuthenticated)).map (fun t => t.name)

/-- Per-tracker stats a fan-out run collects from a list of trackers whose
authenticated members all succeed. -/
def okStatsOf (l : List FanTracker) : List (String × SyncStats) :=
  l.filterMap (fun t =>
    if t.isAuthenticated then t.syncResult.toOption.map (fun st => (t.name, st))
    else none)

/-- Concrete anime row used by the example stores below. -/
def exAnime : Anime := ⟨1, "Frieren", "", [], "", 12, "", 0, "", "", [], ""⟩

/-- Concrete MAL tracking row: progress 5, score 3, last updated at 0. -/
def c1Track : AnimeTracking := ⟨1, 1, "mal", "42", "watching", 3, 5, 12, 0⟩

/-- Concrete store holding `exAnime` tracked by MAL via `c1Track`. -/
def c1Store : Store := ⟨2, 2, [exAnime], [c1Track], none⟩

/-- Remote entry strictly newer than `c1Track` (5 > 0) with higher
progress 7, new status and score. -/
def c1Entry : UserAnimeEntry :=
  ⟨"42", "Frieren", "", "", [], "", "", "", 12, "", 0, [], "", "completed", 9, 7, 5⟩

/-- Remote entry strictly newer than `c1Track` (5 > 0) but with lower
progress (3 < 5). -/
def c2Entry : UserAnimeEntry :=
  ⟨"42", "Frieren", "", "", [], "", "", "", 12, "", 0, [], "", "watching", 3, 3, 5⟩

/-- Remote entry with the same timestamp as `c1Track` (both 0). -/
def c2eqEntry : UserAnimeEntry :=
  ⟨"42", "Frieren", "", "", [], "", "", "", 12, "", 0, [], "", "watching", 3, 3, 0⟩

/-- Remote entry carrying a future timestamp (100, after both pass
times used in the idempotence counterexample). -/
def c5Entry : UserAnimeEntry :=
  ⟨"42", "Frieren", "", "", [], "", "", "", 12, "", 0, [], "", "watching", 8, 6, 100⟩

/-- Authenticated tracker whose pass fails. -/
def fanA : FanTracker := ⟨"mal", true, .error "boom"⟩

/-- Authenticated tracker whose pass would succeed. -/
def fanB : FanTracker := ⟨"anilist", true, .ok SyncStats.start⟩

/-- Second authenticated tracker whose pass would succeed, placed after
the failing one. -/
def fanC : FanTracker := ⟨"kitsu", true, .ok SyncStats.start⟩

/-- Concrete tracking row of tracker `svcA` with external ID 99. -/
def c3Track : AnimeTracking := ⟨1, 1, "svcA", "99", "watching", 3, 4, 12, 0⟩

/-- Concrete store where `exAnime` is tracked only by `svcA`. -/
def c3Store : Store := ⟨2, 2, [exAnime], [c3Track], none⟩

/-- Concrete local-tracker tracking row for the zero-argument update
witness. -/
def c8Track : AnimeTracking := ⟨1, 1, "local", "1", "watching", 7, 4, 12, 0⟩

/-- Concrete store holding `exAnime` tracked by the local tracker. -/
def c8Store : Store := ⟨2, 2, [exAnime], [c8Track], none⟩

/-- Decidable equality for `Except` results, used to settle concrete
store reads by evaluation. -/
instance instDecidableEqExcept {α β : Type} [DecidableEq α] [DecidableEq β] :
    DecidableEq (Except α β) := fun a b =>
  match a, b with
  | .error x, .error y =>
      if h : x = y then isTrue (by rw [h])
      else isFalse (fun hc => h (Except.error.inj hc))
  | .error _, .ok _ => isFalse (fun hc => Except.noConfusion hc)
  | .ok _, .error _ => isFalse (fun hc => Except.noConfusion hc)
  | .ok x, .ok y =>
      if h : x = y then isTrue (by rw [h])
      else isFalse (fun hc => h (Except.ok.inj hc))

/-- Relation between a tracking row and its image after any number of
pull-pass writes stamped at `now`: the identifying fields are untouched
and the row is either unchanged or was last stamped at `now`. -/
def TrackRel (now : Time) (u v : AnimeTracking) : Prop :=
  v.id = u.id ∧ v.animeId = u.animeId ∧ v.tracker = u.tracker ∧
    v.trackerId = u.trackerId ∧ (v = u ∨ v.lastUpdated = now)

/-- Relation between a store and its image after any number of pull-pass
update steps stamped at `now`: anime rows untouched, tracking rows related
pointwise. -/
def StoreRel (now : Time) (s s1 : Store) : Prop :=
  s1.anime = s.anime ∧ List.Forall₂ (TrackRel now) s.trackings s1.trackings

/-- Store component of the first (processing) loop of
`syncWithSingleTracker`, isolated from the accumulated push calls. -/
def processFoldStore (tr : String) (snapshot : List AnimeTracking) (now : Time)
    (entries : List UserAnimeEntry) (st : Store) : Store :=
  entries.foldl (fun st e => (processRemoteEntry st e tr snapshot now).1) st

/-- One step of the deletion loop of `syncWithSingleTracker`: skip keys
still present remotely, delete the rest locally. -/
def delStep (remoteEntries : List UserAnimeEntry) (tr : String)
    (st : Store) (t : AnimeTracking) : Store :=
  if remoteHas remoteEntries t.trackerId then st else deleteLocalEntry st t tr

/-- Generic commutation of `find?` with a map that does not change the
tested predicate. -/
theorem find?_map_pres {α : Type} (f : α → α) (p : α → Bool)
    (h : ∀ a, p (f a) = p a) :
    ∀ l : List α, (l.map f).find? p = (l.find? p).map f := by
  intro l
  induction l with
  | nil => rfl
  | cons x xs ih =>
    by_cases hx : p x
    · rw [List.map_cons, List.find?_cons_of_pos _ (by rw [h]; exact hx),
        List.find?_cons_of_pos _ hx]
      rfl
    · rw [List.map_cons, List.find?_cons_of_neg _ (by rw [h]; exact hx),
        List.find?_cons_of_neg _ hx, ih]

/-- Reading a tracking row after `UpdateAnimeTrackingObject` returns the
row the plain read would have found, with the update applied to it when
its id matches. -/
theorem GetAnimeTracking_UpdateObject (s : Store) (t : AnimeTracking) (now : Time)
    (aid : Int) (tr : String) :
    GetAnimeTracking (UpdateAnimeTrackingObject s t now) aid tr =
      (GetAnimeTracking s aid tr).map
        (fun u => if u.id = t.id then writeTrackingFields t now u else u) := by
  unfold GetAnimeTracking UpdateAnimeTrackingObject
  rw [show ({ s with trackings := s.trackings.map (fun u =>
      if u.id = t.id then writeTrackingFields t now u else u) } : Store).trackings =
      s.trackings.map (fun u => if u.id = t.id then writeTrackingFields t now u else u) from rfl]
  rw [find?_map_pres _ _ (fun a => by
    by_cases ha : a.id = t.id <;> simp [ha, writeTrackingFields])]
  cases s.trackings.find? (fun u => decide (u.animeId = aid ∧ u.tracker = tr)) <;> rfl

/-- Claim C7: for the sync scheduler in any state satisfying the loop
invariant, `Start()` while running is a no-op leaving exactly one active
loop, `Stop()` while not running is a no-op delivering no signal (so it
neither panics nor blocks on the channel), and `Stop()` after `Start()`
delivers the stop signal the loop obeys at its next wait point; the
invariant holds initially and is preserved by both calls. -/
theorem claim_C7_scheduler_start_stop :
    SchedInv SyncManager.new ∧
    ∀ s : SyncManager, SchedInv s →
      (SchedInv (SyncManager.Start s) ∧ SchedInv (SyncManager.Stop s).1) ∧
      (s.isRunning = true →
        SyncManager.Start s = s ∧ (SyncManager.Start s).activeLoops = 1) ∧
      (s.isRunning = false → SyncManager.Stop s = (s, false)) ∧
      (s.isRunning = true →
        (SyncManager.Stop s).2 = true ∧ (SyncManager.Stop s).1.isRunning = false) := by
  constructor
  · rfl
  · intro s h
    rcases s with ⟨run, loops⟩
    cases run <;>
      simp_all [SchedInv, SyncManager.Start, SyncManager.Stop]

/-- Witness for C7 at the concrete running state with one live loop. -/
theorem claim_C7_scheduler_start_stop_witness :
    SchedInv (⟨true, 1⟩ : SyncManager) ∧
      SyncManager.Start ⟨true, 1⟩ = ⟨true, 1⟩ ∧
      (SyncManager.Stop ⟨true, 1⟩).2 = true := by
  refine ⟨rfl, ?_, ?_⟩
  · exact ((claim_C7_scheduler_start_stop.2 ⟨true, 1⟩ rfl).2.1 rfl).1
  · exact ((claim_C7_scheduler_start_stop.2 ⟨true, 1⟩ rfl).2.2.2 rfl).1

/-- Claim C8: updating an existing entry with episode 0 or score 0 leaves
the corresponding field alone on every tracker variant: MAL omits the form
field, Anilist omits the GraphQL variable, and the local tracker keeps the
stored value. -/
theorem claim_C8_zero_argument_leaves_field_unchanged :
    ∀ (status id : String) (episode score : ℚ) (st : Store)
      (tracking : AnimeTracking) (now : Time) (mediaId : Int),
    GetAnimeTracking st (goSscanfInt id) "local" = .ok tracking →
    (episode = 0 →
      List.lookup "num_watched_episodes" (malUpdateParams status episode score) = none ∧
      List.lookup "progress" (anilistUpdateVariables mediaId status episode score) = none ∧
      ∃ u, GetAnimeTracking (LocalTracker.UpdateAnimeStatus st id status episode score now)
          (goSscanfInt id) "local" = .ok u ∧ u.currentEpisode = tracking.currentEpisode) ∧
    (score = 0 →
      List.lookup "score" (malUpdateParams status episode score) = none ∧
      List.lookup "score" (anilistUpdateVariables mediaId status episode score) = none ∧
      ∃ u, GetAnimeTracking (LocalTracker.UpdateAnimeStatus st id status episode score now)
          (goSscanfInt id) "local" = .ok u ∧ u.score = tracking.score) := by
  intro status id episode score st tracking now mediaId hget
  have hpost : ∀ ep sc : ℚ,
      ∃ u, GetAnimeTracking (LocalTracker.UpdateAnimeStatus st id status ep sc now)
          (goSscanfInt id) "local" = .ok u ∧
        u.currentEpisode = (if ep > 0 then ep else tracking.currentEpisode) ∧
        u.score = (if sc > 0 then sc else tracking.score) := by
    intro ep sc
    simp only [LocalTracker.UpdateAnimeStatus, hget]
    rw [GetAnimeTracking_UpdateObject, hget]
    refine ⟨_, rfl, ?_, ?_⟩ <;> simp [writeTrackingFields]
  constructor
  · intro hep
    subst hep
    refine ⟨?_, ?_, ?_⟩
    · by_cases hs : score > 0 <;>
        simp [malUpdateParams, List.lookup, hs, show ¬ (0:ℚ) > 0 by norm_num]
    · by_cases hs : score > 0 <;>
        simp [anilistUpdateVariables, List.lookup, hs, show ¬ (0:ℚ) > 0 by norm_num]
    · obtain ⟨u, hu, he, _⟩ := hpost 0 score
      exact ⟨u, hu, by simpa [show ¬ (0:ℚ) > 0 by norm_num] using he⟩
  · intro hsc
    subst hsc
    refine ⟨?_, ?_, ?_⟩
    · by_cases he : episode > 0 <;>
        simp [malUpdateParams, List.lookup, he, show ¬ (0:ℚ) > 0 by norm_num]
    · by_cases he : episode > 0 <;>
        simp [anilistUpdateVariables, List.lookup, he, show ¬ (0:ℚ) > 0 by norm_num]
    · obtain ⟨u, hu, _, hs⟩ := hpost episode 0
      exact ⟨u, hu, by simpa [show ¬ (0:ℚ) > 0 by norm_num] using hs⟩

/-- Witness for C8 on the concrete local store `c8Store`: updating with
episode 0 and score 0 keeps progress 4 and score 7. -/
theorem claim_C8_zero_argument_leaves_field_unchanged_witness :
    GetAnimeTracking c8Store (goSscanfInt "1") "local" = .ok c8Track ∧
    (∃ u, GetAnimeTracking
        (LocalTracker.UpdateAnimeStatus c8Store "1" "completed" 0 0 9)
        (goSscanfInt "1") "local" = .ok u ∧ u.currentEpisode = c8Track.currentEpisode) := by
  have h := claim_C8_zero_argument_leaves_field_unchanged "completed" "1" 0 0
    c8Store c8Track 9 1 (by decide)
  exact ⟨by decide, (h.1 rfl).2.2⟩

/-- Claim C10: a push with positive episode progress sends the progress
truncated to an integer: MAL as the decimal string of the truncation,
Anilist as the truncated integer variable; for positive progress the Go
`int(...)` conversion is the floor. -/
theorem claim_C10_fractional_progress_truncated :
    ∀ (status : String) (episode score : ℚ) (mediaId : Int),
    0 < episode →
    List.lookup "num_watched_episodes" (malUpdateParams status episode score) =
        some (toString (goInt episode)) ∧
    List.lookup "progress" (anilistUpdateVariables mediaId status episode score) =
        some (GoVal.int (goInt episode)) ∧
    goInt episode = ⌊episode⌋ := by
  intro status episode score mediaId hpos
  refine ⟨?_, ?_, ?_⟩
  · simp [malUpdateParams, List.lookup, hpos]
  · simp [anilistUpdateVariables, List.lookup, hpos]
  · rw [goInt, if_neg (by linarith)]
    rfl

/-- Witness for C10 at the concrete half-episode progress 12.5: sent to
MAL as the string 12 and to Anilist as the integer 12. -/
theorem claim_C10_fractional_progress_truncated_witness :
    (0 : ℚ) < 25 / 2 ∧
    List.lookup "num_watched_episodes" (malUpdateParams "watching" (25 / 2) 0) =
      some "12" ∧
    List.lookup "progress" (anilistUpdateVariables 7 "watching" (25 / 2) 0) =
      some (GoVal.int 12) := by
  have h := claim_C10_fractional_progress_truncated "watching" (25 / 2) 0 7 (by norm_num)
  have h12 : goInt (25 / 2 : ℚ) = 12 := by
    rw [h.2.2]
    norm_num
  refine ⟨by norm_num, ?_, ?_⟩
  · rw [h.1, h12]
    rfl
  · rw [h.2.1, h12]

/-- Claim C4 counterexample: with two registered, authenticated trackers
where the first in iteration order fails, the fan-out returns the error
immediately and the second tracker is never executed, contradicting the
claim that the remaining trackers still run. -/
theorem claim_C4_counterexample_fanout_aborts :
    (TrackerManager.SyncAllFromRemote [fanA, fanB]).2.1 = ["mal"] ∧
    (TrackerManager.SyncAllFromRemote [fanA, fanB]).2.2 =
      some "failed to sync from mal: boom" ∧
    fanB.isAuthenticated = true ∧
    "anilist" ∉ (TrackerManager.SyncAllFromRemote [fanA, fanB]).2.1 := by
  refine ⟨rfl, rfl, rfl, ?_⟩
  decide

/-- Auxiliary characterization of the fan-out recursion: with every
authenticated tracker before `t` succeeding, `t` authenticated and
failing, the run returns the stats and executions collected up to and
including `t`, with `t`'s error; nothing after `t` is touched. -/
theorem SyncAllFromRemoteAux_first_error :
    ∀ (pre : List FanTracker) (acc : List (String × SyncStats)) (ex : List String)
      (t : FanTracker) (rest : List FanTracker) (e : String),
    (∀ u ∈ pre, u.isAuthenticated = true → u.syncResult.isOk = true) →
    t.isAuthenticated = true →
    t.syncResult = .error e →
    SyncAllFromRemoteAux acc ex (pre ++ t :: rest) =
      (acc ++ okStatsOf pre, ex ++ executedOf pre ++ [t.name],
        some ("failed to sync from " ++ t.name ++ ": " ++ e)) := by
  intro pre
  induction pre with
  | nil =>
    intro acc ex t rest e _ hauth herr
    simp [SyncAllFromRemoteAux, hauth, herr, okStatsOf, executedOf]
  | cons u pre ih =>
    intro acc ex t rest e hok hauth herr
    have htail : ∀ v ∈ pre, v.isAuthenticated = true → v.syncResult.isOk = true :=
      fun v hv => hok v (List.mem_cons_of_mem _ hv)
    by_cases hu : u.isAuthenticated = true
    · have huok : u.syncResult.isOk = true := hok u (List.mem_cons_self _ _) hu
      cases hres : u.syncResult with
      | error _ =>
        rw [hres] at huok
        simp [Except.isOk, Except.toBool] at huok
      | ok st =>
        have hrec := ih (acc ++ [(u.name, st)]) (ex ++ [u.name]) t rest e htail hauth herr
        calc SyncAllFromRemoteAux acc ex ((u :: pre) ++ t :: rest)
            = SyncAllFromRemoteAux (acc ++ [(u.name, st)]) (ex ++ [u.name])
                (pre ++ t :: rest) := by
              simp [SyncAllFromRemoteAux, hu, hres]
          _ = (acc ++ okStatsOf (u :: pre), ex ++ executedOf (u :: pre) ++ [t.name],
                some ("failed to sync from " ++ t.name ++ ": " ++ e)) := by
              rw [hrec]
              simp [okStatsOf, executedOf, hu, hres, Except.toOption]
    · have hu' : u.isAuthenticated = false := by
        cases h : u.isAuthenticated
        · rfl
        · exact absurd h hu
      have hrec := ih acc ex t rest e htail hauth herr
      calc SyncAllFromRemoteAux acc ex ((u :: pre) ++ t :: rest)
          = SyncAllFromRemoteAux acc ex (pre ++ t :: rest) := by
            simp [SyncAllFromRemoteAux, hu']
        _ = (acc ++ okStatsOf (u :: pre), ex ++ executedOf (u :: pre) ++ [t.name],
              some ("failed to sync from " ++ t.name ++ ": " ++ e)) := by
            rw [hrec]
            simp [okStatsOf, executedOf, hu']

/-- Claim C4 (amended): the fan-out skips unauthenticated trackers and
stops at the first authenticated tracker whose pass errors: the error is
returned immediately together with the per-tracker stats collected so
far, and the trackers after it in iteration order are not attempted. -/
theorem claim_C4_amended_first_error_stops_fanout :
    ∀ (pre rest : List FanTracker) (t : FanTracker) (e : String),
    (∀ u ∈ pre, u.isAuthenticated = true → u.syncResult.isOk = true) →
    t.isAuthenticated = true →
    t.syncResult = .error e →
    TrackerManager.SyncAllFromRemote (pre ++ t :: rest) =
      (okStatsOf pre, executedOf pre ++ [t.name],
        some ("failed to sync from " ++ t.name ++ ": " ++ e)) := by
  intro pre rest t e hok hauth herr
  have h := SyncAllFromRemoteAux_first_error pre [] [] t rest e hok hauth herr
  simpa [TrackerManager.SyncAllFromRemote] using h

/-- Witness for the amended C4: one succeeding tracker before the failing
one, one after; the run returns the first tracker's stats, executes
exactly the first two, and never reaches the third. -/
theorem claim_C4_amended_first_error_stops_fanout_witness :
    TrackerManager.SyncAllFromRemote [fanB, fanA, fanC] =
      ([("anilist", SyncStats.start)], ["anilist", "mal"],
        some "failed to sync from mal: boom") := by
  have h := claim_C4_amended_first_error_stops_fanout [fanB] [fanC] fanA "boom"
    (by
      intro u hu hua
      have : u = fanB := by simpa using hu
      subst this
      rfl)
    rfl rfl
  simpa [okStatsOf, executedOf, fanA, fanB, Except.toOption] using h

/-- Characterization of the push-pass loop: skipped counts the rows not
strictly newer than a set watermark, errors counts the attempted rows
whose push fails, updated the attempted rows whose push succeeds, and the
issued calls are exactly the attempted rows in order. -/
theorem malSyncToRemote_fold_spec (wm : Time) (rf : PushCall → Bool) :
    ∀ (l : List AnimeTracking) (stats : SyncStats) (calls : List PushCall),
    (l.foldl (malSyncToRemoteStep wm rf) (stats, calls)).1.skipped =
        stats.skipped + (l.filter (skipCond wm)).length ∧
    (l.foldl (malSyncToRemoteStep wm rf) (stats, calls)).1.errors =
        stats.errors +
          (l.filter (fun t => !skipCond wm t && rf (pushCallOf t))).length ∧
    (l.foldl (malSyncToRemoteStep wm rf) (stats, calls)).1.updated =
        stats.updated +
          (l.filter (fun t => !skipCond wm t && !rf (pushCallOf t))).length ∧
    (l.foldl (malSyncToRemoteStep wm rf) (stats, calls)).2 =
        calls ++ (l.filter (fun t => !skipCond wm t)).map pushCallOf := by
  intro l
  induction l with
  | nil => intro stats calls; simp
  | cons x xs ih =>
    intro stats calls
    rw [List.foldl_cons]
    by_cases hx : wm ≠ 0 ∧ ¬ x.lastUpdated > wm
    · have hsk : skipCond wm x = true := decide_eq_true hx
      have hstep : malSyncToRemoteStep wm rf (stats, calls) x =
          ({ stats with skipped := stats.skipped + 1 }, calls) := by
        rw [malSyncToRemoteStep, if_pos hx]
      rw [hstep]
      obtain ⟨h1, h2, h3, h4⟩ := ih { stats with skipped := stats.skipped + 1 } calls
      refine ⟨?_, ?_, ?_, ?_⟩
      · rw [h1, List.filter_cons_of_pos hsk, List.length_cons]
        dsimp only
        omega
      · rw [h2, List.filter_cons_of_neg (by simp [hsk])]
      · rw [h3, List.filter_cons_of_neg (by simp [hsk])]
      · rw [h4, List.filter_cons_of_neg (by simp [hsk])]
    · have hsk : skipCond wm x = false := by
        rw [skipCond, decide_eq_false_iff_not]
        exact hx
      by_cases hrf : rf (pushCallOf x) = true
      · have hstep : malSyncToRemoteStep wm rf (stats, calls) x =
            ({ stats with
                errors := stats.errors + 1,
                details := stats.details ++
                  ["Failed to update anime " ++ x.trackerId ++ " on MAL"] },
              calls ++ [pushCallOf x]) := by
          rw [malSyncToRemoteStep, if_neg hx, if_pos hrf]
        rw [hstep]
        obtain ⟨h1, h2, h3, h4⟩ := ih
          { stats with
              errors := stats.errors + 1,
              details := stats.details ++
                ["Failed to update anime " ++ x.trackerId ++ " on MAL"] }
          (calls ++ [pushCallOf x])
        refine ⟨?_, ?_, ?_, ?_⟩
        · rw [h1, List.filter_cons_of_neg (by simp [hsk])]
        · rw [h2, List.filter_cons_of_pos (by simp [hsk, hrf]), List.length_cons]
          dsimp only
          omega
        · rw [h3, List.filter_cons_of_neg (by simp [hsk, hrf])]
        · rw [h4, List.filter_cons_of_pos (by simp [hsk]), List.map_cons]
          simp
      · have hstep : malSyncToRemoteStep wm rf (stats, calls) x =
            ({ stats with
                updated := stats.updated + 1,
                details := stats.details ++
                  ["Updated anime " ++ x.trackerId ++ " on MAL"] },
              calls ++ [pushCallOf x]) := by
          rw [malSyncToRemoteStep, if_neg hx, if_neg hrf]
        rw [hstep]
        obtain ⟨h1, h2, h3, h4⟩ := ih
          { stats with
              updated := stats.updated + 1,
              details := stats.details ++
                ["Updated anime " ++ x.trackerId ++ " on MAL"] }
          (calls ++ [pushCallOf x])
        refine ⟨?_, ?_, ?_, ?_⟩
        · rw [h1, List.filter_cons_of_neg (by simp [hsk])]
        · rw [h2, List.filter_cons_of_neg (by simp [hsk, hrf])]
        · rw [h3, List.filter_cons_of_pos (by simp [hsk, hrf]), List.length_cons]
          dsimp only
          omega
        · rw [h4, List.filter_cons_of_pos (by simp [hsk]), List.map_cons]
          simp

/-- Claim C6: on a push pass without remote failures, exactly the rows
not strictly newer than a set watermark are counted Skipped, the
remaining rows are pushed via `UpdateAnimeStatus` in order, a never-set
watermark filters nothing (every row is pushed), and the watermark is set
to the single clock sample the pass takes, which the source takes after
the loop, not before it. -/
theorem claim_C6_push_pass_watermark_filter :
    ∀ (s : Store) (now : Time),
    (MALTracker.SyncToRemote s (fun _ => false) now).2.1.skipped =
        ((GetAllAnimeTrackingByTracker s "mal").filter
          (skipCond (s.malLastSync.getD 0))).length ∧
    (MALTracker.SyncToRemote s (fun _ => false) now).2.2 =
        ((GetAllAnimeTrackingByTracker s "mal").filter
          (fun t => !skipCond (s.malLastSync.getD 0) t)).map pushCallOf ∧
    (s.malLastSync = none →
      (MALTracker.SyncToRemote s (fun _ => false) now).2.2 =
        (GetAllAnimeTrackingByTracker s "mal").map pushCallOf) ∧
    (MALTracker.SyncToRemote s (fun _ => false) now).1.malLastSync = some now := by
  intro s now
  obtain ⟨h1, _, _, h4⟩ := malSyncToRemote_fold_spec (s.malLastSync.getD 0)
    (fun _ => false) (GetAllAnimeTrackingByTracker s "mal") SyncStats.start []
  refine ⟨?_, ?_, ?_, rfl⟩
  · simpa [SyncStats.start] using h1
  · simpa [SyncStats.start] using h4
  · intro hnone
    have hz : s.malLastSync.getD 0 = 0 := by rw [hnone]; rfl
    have hall : ∀ t : AnimeTracking, (!skipCond (s.malLastSync.getD 0) t) = true := by
      intro t
      rw [hz]
      simp [skipCond]
    have := h4
    rw [List.filter_congr (fun t _ => hall t), List.filter_true] at this
    simpa [SyncStats.start] using this

/-- Witness for C6 on the concrete store `c1Store`, whose watermark was
never set: the single MAL row is pushed and the watermark becomes the
pass time. -/
theorem claim_C6_push_pass_watermark_filter_witness :
    (MALTracker.SyncToRemote c1Store (fun _ => false) 10).2.2 =
        (GetAllAnimeTrackingByTracker c1Store "mal").map pushCallOf ∧
    (MALTracker.SyncToRemote c1Store (fun _ => false) 10).1.malLastSync = some 10 := by
  have h := claim_C6_push_pass_watermark_filter c1Store 10
  exact ⟨h.2.2.1 rfl, h.2.2.2⟩

/-- Claim C9: a push pass advances the watermark to the pass time even
when per-item pushes failed, and on the next pass an item whose push
failed but whose timestamp did not change is inside the skip filter while
every call the next pass issues comes from a row strictly newer than the
new watermark, so the failed item is not retried. -/
theorem claim_C9_watermark_advances_past_failed_pushes :
    ∀ (s : Store) (rf rf2 : PushCall → Bool) (now now2 : Time) (t : AnimeTracking),
    t ∈ GetAllAnimeTrackingByTracker s "mal" →
    rf (pushCallOf t) = true →
    (s.malLastSync.getD 0 = 0 ∨ t.lastUpdated > s.malLastSync.getD 0) →
    t.lastUpdated ≤ now → 0 < now →
    1 ≤ (MALTracker.SyncToRemote s rf now).2.1.errors ∧
    (MALTracker.SyncToRemote s rf now).1.malLastSync = some now ∧
    1 ≤ (MALTracker.SyncToRemote
          (MALTracker.SyncToRemote s rf now).1 rf2 now2).2.1.skipped ∧
    ∀ c ∈ (MALTracker.SyncToRemote
          (MALTracker.SyncToRemote s rf now).1 rf2 now2).2.2,
      ∃ u ∈ GetAllAnimeTrackingByTracker s "mal",
        pushCallOf u = c ∧ u.lastUpdated > now := by
  intro s rf rf2 now now2 t hmem hrf hattempt hle hpos
  have hskip : skipCond (s.malLastSync.getD 0) t = false := by
    rw [skipCond, decide_eq_false_iff_not]
    rcases hattempt with h | h
    · exact fun hc => hc.1 h
    · exact fun hc => hc.2 h
  obtain ⟨_, h2, _, _⟩ := malSyncToRemote_fold_spec (s.malLastSync.getD 0) rf
    (GetAllAnimeTrackingByTracker s "mal") SyncStats.start []
  have hrows2 : GetAllAnimeTrackingByTracker
      (MALTracker.SyncToRemote s rf now).1 "mal" =
      GetAllAnimeTrackingByTracker s "mal" := rfl
  have hwm2 : (MALTracker.SyncToRemote s rf now).1.malLastSync = some now := rfl
  have hskip2 : skipCond now t = true := by
    rw [skipCond, decide_eq_true_eq]
    exact ⟨ne_of_gt hpos, not_lt.mpr hle⟩
  obtain ⟨g1, _, _, g4⟩ := malSyncToRemote_fold_spec now rf2
    (GetAllAnimeTrackingByTracker s "mal") SyncStats.start []
  refine ⟨?_, rfl, ?_, ?_⟩
  · have htf : t ∈ (GetAllAnimeTrackingByTracker s "mal").filter
        (fun u => !skipCond (s.malLastSync.getD 0) u && rf (pushCallOf u)) :=
      List.mem_filter.mpr ⟨hmem, by simp [hskip, hrf]⟩
    have hlen := List.length_pos.mpr (List.ne_nil_of_mem htf)
    have : (MALTracker.SyncToRemote s rf now).2.1.errors =
        ((GetAllAnimeTrackingByTracker s "mal").filter
          (fun u => !skipCond (s.malLastSync.getD 0) u && rf (pushCallOf u))).length := by
      simpa [SyncStats.start] using h2
    omega
  · have htf : t ∈ (GetAllAnimeTrackingByTracker s "mal").filter (skipCond now) :=
      List.mem_filter.mpr ⟨hmem, hskip2⟩
    have hlen := List.length_pos.mpr (List.ne_nil_of_mem htf)
    have : (MALTracker.SyncToRemote
        (MALTracker.SyncToRemote s rf now).1 rf2 now2).2.1.skipped =
        ((GetAllAnimeTrackingByTracker s "mal").filter (skipCond now)).length := by
      simpa [SyncStats.start] using g1
    omega
  · intro c hc
    have hcalls : (MALTracker.SyncToRemote
        (MALTracker.SyncToRemote s rf now).1 rf2 now2).2.2 =
        ((GetAllAnimeTrackingByTracker s "mal").filter
          (fun u => !skipCond now u)).map pushCallOf := by
      simpa [SyncStats.start] using g4
    rw [hcalls] at hc
    obtain ⟨u, hu, hcu⟩ := List.mem_map.mp hc
    obtain ⟨humem, hupred⟩ := List.mem_filter.mp hu
    refine ⟨u, humem, hcu, ?_⟩
    have : skipCond now u = false := by
      cases h : skipCond now u
      · rfl
      · rw [h] at hupred; simp at hupred
    rw [skipCond, decide_eq_false_iff_not] at this
    by_contra hgt
    exact this ⟨ne_of_gt hpos, hgt⟩

/-- Witness for C9 on `c1Store` with a push oracle failing every call:
the first pass records an error yet advances the watermark to 10, and the
immediately following pass skips the unchanged row. -/
theorem claim_C9_watermark_advances_past_failed_pushes_witness :
    1 ≤ (MALTracker.SyncToRemote c1Store (fun _ => true) 10).2.1.errors ∧
    (MALTracker.SyncToRemote c1Store (fun _ => true) 10).1.malLastSync = some 10 ∧
    1 ≤ (MALTracker.SyncToRemote
          (MALTracker.SyncToRemote c1Store (fun _ => true) 10).1
          (fun _ => true) 20).2.1.skipped := by
  have h := claim_C9_watermark_advances_past_failed_pushes c1Store
    (fun _ => true) (fun _ => true) 10 20 c1Track
    (by decide) rfl (Or.inl rfl) (by decide) (by decide)
  exact ⟨h.1, h.2.1, h.2.2.1⟩

/-- Claim C1, evaluated at its failing input: a remote entry strictly
newer than the local record (5 > 0) does overwrite status, score and
progress and is counted Updated, but the stored `lastUpdated` becomes the
write time 10, not the remote timestamp 5 — `UpdateAnimeTrackingObject`
persists `time.Now()` instead of the value assigned at
pkg/tracker/mal.go:881, contradicting the claim that `lastUpdated` is
overwritten from the remote entry. -/
theorem claim_C1_pull_overwrite_stamps_write_time :
    (MALTracker.SyncFromRemote c1Store [c1Entry] 10).1.trackings =
      [⟨1, 1, "mal", "42", "completed", 9, 7, 12, 10⟩] ∧
    (MALTracker.SyncFromRemote c1Store [c1Entry] 10).2.updated = 1 ∧
    c1Entry.lastUpdated = 5 ∧
    ((MALTracker.SyncFromRemote c1Store [c1Entry] 10).1.trackings.map
        (fun u => u.lastUpdated) = [c1Entry.lastUpdated] → False) := by
  refine ⟨by decide, by decide, by decide, by decide⟩

/-- Claim C2 counterexample: a remote entry strictly newer than the local
record but with lower progress (3 < 5) is not skipped: the step mutates
the local store (progress drops to the remote 3) and counts the item
Updated, contradicting the claimed no-mutation/Skipped outcome. -/
theorem claim_C2_counterexample_remote_newer_lower_progress_mutates :
    c2Entry.lastUpdated > c1Track.lastUpdated ∧
    c2Entry.progress < c1Track.currentEpisode ∧
    (malSyncFromRemoteStep 10 (c1Store, SyncStats.start) c2Entry).2.skipped = 0 ∧
    (malSyncFromRemoteStep 10 (c1Store, SyncStats.start) c2Entry).2.updated = 1 ∧
    (malSyncFromRemoteStep 10 (c1Store, SyncStats.start) c2Entry).1 ≠ c1Store ∧
    (malSyncFromRemoteStep 10 (c1Store, SyncStats.start) c2Entry).1.trackings.map
      (fun u => u.currentEpisode) = [c2Entry.progress] := by
  refine ⟨by decide, by decide, by decide, by decide, by decide, by decide⟩

/-- Claim C2 (amended): for a remote entry whose timestamp equals the
existing local record's timestamp the step makes no mutation and counts
the item Skipped; but a strictly newer remote entry is always applied to
the local store (counted Updated), even when its progress is lower than
or equal to the local progress. The pull pass issues no remote calls at
all, so the remote tracker is untouched in every case. -/
theorem claim_C2_amended_equal_skip_newer_overwrites :
    ∀ (s : Store) (stats : SyncStats) (e : UserAnimeEntry) (a : Anime)
      (u : AnimeTracking) (now : Time),
    GetAnimeByExternalID s e.id "mal" = .ok a →
    GetAnimeTracking s a.id "mal" = .ok u →
    (e.lastUpdated = u.lastUpdated →
      malSyncFromRemoteStep now (s, stats) e =
        (s, { stats with skipped := stats.skipped + 1 })) ∧
    (e.lastUpdated > u.lastUpdated →
      malSyncFromRemoteStep now (s, stats) e =
        (UpdateAnimeTrackingObject s (pullPatch e u) now,
         { stats with
            updated := stats.updated + 1,
            details := stats.details ++ ["Updated tracking for: " ++ e.title] })) := by
  intro s stats e a u now ha hu
  constructor
  · intro heq
    simp only [malSyncFromRemoteStep, ha, hu]
    rw [if_neg (by rw [heq]; exact lt_irrefl _)]
  · intro hgt
    simp only [malSyncFromRemoteStep, ha, hu]
    rw [if_pos hgt]

/-- Witness for the amended C2 at the concrete equal-timestamp input: the
step returns the store unchanged with one more Skipped. -/
theorem claim_C2_amended_equal_skip_newer_overwrites_witness :
    malSyncFromRemoteStep 10 (c1Store, SyncStats.start) c2eqEntry =
      (c1Store, { SyncStats.start with skipped := SyncStats.start.skipped + 1 }) := by
  have h := claim_C2_amended_equal_skip_newer_overwrites c1Store SyncStats.start
    c2eqEntry exAnime c1Track 10 (by decide) (by decide)
  exact h.1 (by decide)

/-- Claim C5 counterexample: with a remote entry whose timestamp 100 lies
in the future of both pass times, the first pull pass updates without
errors, and the second pass over the unchanged snapshot updates again
(Updated is 1 and nothing is Skipped), because the first pass stamped the
row with the write time 10 rather than the remote timestamp. -/
theorem claim_C5_counterexample_future_remote_timestamp :
    (MALTracker.SyncFromRemote c1Store [c5Entry] 10).2.errors = 0 ∧
    (MALTracker.SyncFromRemote (MALTracker.SyncFromRemote c1Store [c5Entry] 10).1
        [c5Entry] 11).2.updated = 1 ∧
    (MALTracker.SyncFromRemote (MALTracker.SyncFromRemote c1Store [c5Entry] 10).1
        [c5Entry] 11).2.skipped = 0 := by
  refine ⟨by decide, by decide, by decide⟩

/-- TrackRel is reflexive. -/
theorem TrackRel_refl (now : Time) (u : AnimeTracking) : TrackRel now u u :=
  ⟨rfl, rfl, rfl, rfl, Or.inl rfl⟩

/-- TrackRel composes. -/
theorem TrackRel_trans {now : Time} {u v w : AnimeTracking}
    (h1 : TrackRel now u v) (h2 : TrackRel now v w) : TrackRel now u w := by
  obtain ⟨a1, b1, c1, d1, e1⟩ := h1
  obtain ⟨a2, b2, c2, d2, e2⟩ := h2
  refine ⟨a2.trans a1, b2.trans b1, c2.trans c1, d2.trans d1, ?_⟩
  rcases e2 with rfl | h
  · exact e1
  · exact Or.inr h

/-- Pointwise relatedness of a list with its image under a map. -/
theorem forall2_map_self {α : Type} (R : α → α → Prop) (f : α → α) :
    ∀ l : List α, (∀ u ∈ l, R u (f u)) → List.Forall₂ R l (l.map f) := by
  intro l
  induction l with
  | nil => intro _; constructor
  | cons x xs ih =>
    intro h
    exact List.Forall₂.cons (h x (List.mem_cons_self _ _))
      (ih fun u hu => h u (List.mem_cons_of_mem _ hu))

/-- Forall₂ composes along a transitive relation. -/
theorem forall2_trans {α : Type} {R : α → α → Prop}
    (hR : ∀ a b c, R a b → R b c → R a c) :
    ∀ {l1 l2 l3 : List α}, List.Forall₂ R l1 l2 → List.Forall₂ R l2 l3 →
      List.Forall₂ R l1 l3 := by
  intro l1 l2 l3 h12
  induction h12 generalizing l3 with
  | nil =>
    intro h23
    cases h23
    constructor
  | cons hab h ih =>
    intro h23
    cases h23 with
    | cons hbc h23 => exact List.Forall₂.cons (hR _ _ _ hab hbc) (ih h23)

/-- StoreRel is reflexive. -/
theorem StoreRel_refl (now : Time) (s : Store) : StoreRel now s s :=
  ⟨rfl, List.forall₂_same.mpr fun u _ => TrackRel_refl now u⟩

/-- StoreRel composes. -/
theorem StoreRel_trans {now : Time} {s1 s2 s3 : Store}
    (h1 : StoreRel now s1 s2) (h2 : StoreRel now s2 s3) : StoreRel now s1 s3 :=
  ⟨h2.1.trans h1.1,
    forall2_trans (R := TrackRel now)
      (fun _ _ _ ha hb => TrackRel_trans ha hb) h1.2 h2.2⟩

/-- Related lists agree on `find?` for a predicate the relation leaves
invariant: both fail, or they return related elements. -/
theorem find?_rel {α : Type} {R : α → α → Prop} {p : α → Bool}
    (hp : ∀ u v, R u v → p u = p v) :
    ∀ {l l1 : List α}, List.Forall₂ R l l1 →
      (l.find? p = none ∧ l1.find? p = none) ∨
      ∃ u v, l.find? p = some u ∧ l1.find? p = some v ∧ R u v := by
  intro l l1 h
  induction h with
  | nil => exact Or.inl ⟨rfl, rfl⟩
  | cons hxy h ih =>
    rename_i x y xs ys
    by_cases hx : p x
    · exact Or.inr ⟨x, y, List.find?_cons_of_pos _ hx,
        List.find?_cons_of_pos _ (by rw [← hp _ _ hxy]; exact hx), hxy⟩
    · rw [List.find?_cons_of_neg _ hx]
      rw [List.find?_cons_of_neg _ (by rw [← hp _ _ hxy]; exact hx)]
      exact ih

/-- Related stores resolve external IDs to the same result: the
identifying fields of tracking rows are invariant under the relation, and
the anime table itself is untouched. -/
theorem GetAnimeByExternalID_rel {now : Time} {s s1 : Store}
    (h : StoreRel now s s1) (eid tr : String) :
    GetAnimeByExternalID s1 eid tr = GetAnimeByExternalID s eid tr := by
  unfold GetAnimeByExternalID
  rcases find?_rel (R := TrackRel now)
      (p := fun t => decide (t.tracker = tr ∧ t.trackerId = eid))
      (fun u v hr => by
        show decide (u.tracker = tr ∧ u.trackerId = eid) =
          decide (v.tracker = tr ∧ v.trackerId = eid)
        rw [hr.2.2.1, hr.2.2.2.1]) h.2 with
    ⟨h1, h2⟩ | ⟨u, v, h1, h2, hr⟩
  · rw [h1, h2]
  · rw [h1, h2]
    dsimp only
    rw [hr.2.1]
    unfold GetAnime
    rw [h.1]

/-- Related stores resolve `(anime_id, tracker)` to both-missing or to
related rows. -/
theorem GetAnimeTracking_rel {now : Time} {s s1 : Store}
    (h : StoreRel now s s1) (aid : Int) (tr : String) :
    (GetAnimeTracking s aid tr = .error .noRows ∧
      GetAnimeTracking s1 aid tr = .error .noRows) ∨
    ∃ u v, GetAnimeTracking s aid tr = .ok u ∧
      GetAnimeTracking s1 aid tr = .ok v ∧ TrackRel now u v := by
  unfold GetAnimeTracking
  rcases find?_rel (R := TrackRel now)
      (p := fun t => decide (t.animeId = aid ∧ t.tracker = tr))
      (fun u v hr => by
        show decide (u.animeId = aid ∧ u.tracker = tr) =
          decide (v.animeId = aid ∧ v.tracker = tr)
        rw [hr.2.1, hr.2.2.1]) h.2 with
    ⟨h1, h2⟩ | ⟨u, v, h1, h2, hr⟩
  · rw [h1, h2]
    exact Or.inl ⟨rfl, rfl⟩
  · rw [h1, h2]
    exact Or.inr ⟨u, v, rfl, rfl, hr⟩

/-- The external-ID lookup never reports the raw `sql.ErrNoRows`: a
missing row surfaces as `ErrAnimeNotFound` and a found row leads to
`GetAnime`, which also reports `ErrAnimeNotFound`. This makes the
`anime == nil` add branch of `MALTracker.SyncFromRemote` unreachable. -/
theorem GetAnimeByExternalID_ne_noRows (s : Store) (eid tr : String) :
    GetAnimeByExternalID s eid tr ≠ .error .noRows := by
  unfold GetAnimeByExternalID
  cases hf : s.trackings.find? (fun t => decide (t.tracker = tr ∧ t.trackerId = eid)) with
  | none => simp
  | some t =>
    dsimp only
    unfold GetAnime
    cases hg : s.anime.find? (fun a => decide (a.id = t.animeId)) <;> simp [hg]

/-- When the external-ID lookup succeeds, the `(anime_id, tracker)` lookup
on the resolved anime also succeeds: the very tracking row the external
lookup went through matches it. This makes the `tracking == nil` add
branch of `MALTracker.SyncFromRemote` unreachable. -/
theorem GetAnimeTracking_of_byExternal {s : Store} {eid tr : String} {a : Anime}
    (h : GetAnimeByExternalID s eid tr = .ok a) :
    ∃ u, GetAnimeTracking s a.id tr = .ok u := by
  unfold GetAnimeByExternalID at h
  cases hf : s.trackings.find? (fun t => decide (t.tracker = tr ∧ t.trackerId = eid)) with
  | none => rw [hf] at h; cases h
  | some t0 =>
    rw [hf] at h
    dsimp only at h
    unfold GetAnime at h
    cases hg : s.anime.find? (fun x => decide (x.id = t0.animeId)) with
    | none => rw [hg] at h; cases h
    | some a0 =>
      rw [hg] at h
      have ha0 : a0 = a := by
        cases h
        rfl
      have hid : a0.id = t0.animeId := by
        have h0 := List.find?_some hg
        simp only [decide_eq_true_eq] at h0
        exact h0
      have hmem : t0 ∈ s.trackings := List.mem_of_find?_eq_some hf
      have hpred : t0.tracker = tr ∧ t0.trackerId = eid := by
        have h0 := List.find?_some hf
        simp only [decide_eq_true_eq] at h0
        exact h0
      have hsome : (s.trackings.find?
          (fun t => decide (t.animeId = a.id ∧ t.tracker = tr))).isSome := by
        rw [List.find?_isSome]
        refine ⟨t0, hmem, ?_⟩
        rw [decide_eq_true_eq]
        exact ⟨by rw [← ha0, hid], hpred.1⟩
      unfold GetAnimeTracking
      cases hfind : s.trackings.find?
          (fun t => decide (t.animeId = a.id ∧ t.tracker = tr)) with
      | none => rw [hfind] at hsome; cases hsome
      | some u => exact ⟨u, rfl⟩

/-- A successful `(anime_id, tracker)` read returns a stored row matching
the key. -/
theorem GetAnimeTracking_ok_mem {s : Store} {aid : Int} {tr : String}
    {u : AnimeTracking} (h : GetAnimeTracking s aid tr = .ok u) :
    u ∈ s.trackings ∧ u.animeId = aid ∧ u.tracker = tr := by
  unfold GetAnimeTracking at h
  cases hf : s.trackings.find? (fun t => decide (t.animeId = aid ∧ t.tracker = tr)) with
  | none => rw [hf] at h; cases h
  | some t =>
    rw [hf] at h
    have ht : t = u := by cases h; rfl
    subst ht
    have h0 := List.find?_some hf
    simp only [decide_eq_true_eq] at h0
    exact ⟨List.mem_of_find?_eq_some hf, h0⟩

/-- Case analysis of the `MALTracker.SyncFromRemote` loop body: either the
external lookup fails with `ErrAnimeNotFound` and the item is counted an
error with no store change, or both lookups succeed and the step is the
newer-overwrite or the skip — the two add branches of the source are
unreachable. -/
theorem malStep_shape (now : Time) (s : Store) (stats : SyncStats) (e : UserAnimeEntry) :
    (malSyncFromRemoteStep now (s, stats) e =
        (s, { stats with
                errors := stats.errors + 1,
                details := stats.details ++ ["Error checking anime " ++ e.title] }) ∧
      GetAnimeByExternalID s e.id "mal" = .error .animeNotFound) ∨
    ∃ a u, GetAnimeByExternalID s e.id "mal" = .ok a ∧
      GetAnimeTracking s a.id "mal" = .ok u ∧
      ((e.lastUpdated > u.lastUpdated ∧
        malSyncFromRemoteStep now (s, stats) e =
          (UpdateAnimeTrackingObject s (pullPatch e u) now,
            { stats with
                updated := stats.updated + 1,
                details := stats.details ++ ["Updated tracking for: " ++ e.title] })) ∨
       (¬ e.lastUpdated > u.lastUpdated ∧
        malSyncFromRemoteStep now (s, stats) e =
          (s, { stats with skipped := stats.skipped + 1 }))) := by
  cases hA : GetAnimeByExternalID s e.id "mal" with
  | error err =>
    cases err with
    | noRows => exact absurd hA (GetAnimeByExternalID_ne_noRows s e.id "mal")
    | animeNotFound =>
      left
      refine ⟨?_, rfl⟩
      simp only [malSyncFromRemoteStep, hA]
      rw [if_pos (by decide)]
  | ok a =>
    obtain ⟨u, hu⟩ := GetAnimeTracking_of_byExternal hA
    right
    refine ⟨a, u, rfl, hu, ?_⟩
    by_cases hlt : e.lastUpdated > u.lastUpdated
    · exact Or.inl ⟨hlt, by simp only [malSyncFromRemoteStep, hA, hu]; rw [if_pos hlt]⟩
    · exact Or.inr ⟨hlt, by simp only [malSyncFromRemoteStep, hA, hu]; rw [if_neg hlt]⟩

/-- One pull step relates the store to its result and keeps the row id
skeleton, provided row ids are unique (the table's primary key). -/
theorem malStep_rel (now : Time) (s : Store) (stats : SyncStats) (e : UserAnimeEntry)
    (hn : (s.trackings.map (fun u => u.id)).Nodup) :
    StoreRel now s (malSyncFromRemoteStep now (s, stats) e).1 ∧
    (malSyncFromRemoteStep now (s, stats) e).1.trackings.map (fun u => u.id) =
      s.trackings.map (fun u => u.id) := by
  rcases malStep_shape now s stats e with ⟨hcase, _⟩ | ⟨a, u, hA, hu, hbranch⟩
  · rw [hcase]
    exact ⟨StoreRel_refl now s, rfl⟩
  · rcases hbranch with ⟨hlt, hcase⟩ | ⟨hlt, hcase⟩
    · rw [hcase]
      have humem : u ∈ s.trackings := (GetAnimeTracking_ok_mem hu).1
      constructor
      · refine ⟨rfl, ?_⟩
        apply forall2_map_self
        intro w hw
        by_cases hwid : w.id = (pullPatch e u).id
        · have hwu : w = u := List.inj_on_of_nodup_map hn hw humem hwid
          subst hwu
          rw [if_pos hwid]
          exact ⟨rfl, rfl, rfl, rfl, Or.inr rfl⟩
        · rw [if_neg hwid]
          exact TrackRel_refl now w
      · rw [show (UpdateAnimeTrackingObject s (pullPatch e u) now).trackings =
            s.trackings.map (fun w =>
              if w.id = (pullPatch e u).id then
                writeTrackingFields (pullPatch e u) now w
              else w) from rfl,
          List.map_map]
        apply List.map_congr_left
        intro w _
        by_cases hwid : w.id = (pullPatch e u).id <;>
          simp [hwid, writeTrackingFields]
    · rw [hcase]
      exact ⟨StoreRel_refl now s, rfl⟩

/-- A whole pull loop relates the store to its result and keeps the row
id skeleton. -/
theorem malRun_rel (now : Time) :
    ∀ (l : List UserAnimeEntry) (s : Store) (stats : SyncStats),
    (s.trackings.map (fun u => u.id)).Nodup →
    StoreRel now s (l.foldl (malSyncFromRemoteStep now) (s, stats)).1 ∧
    (l.foldl (malSyncFromRemoteStep now) (s, stats)).1.trackings.map (fun u => u.id) =
      s.trackings.map (fun u => u.id) := by
  intro l
  induction l with
  | nil =>
    intro s stats _
    exact ⟨StoreRel_refl now s, rfl⟩
  | cons x xs ih =>
    intro s stats hn
    rw [List.foldl_cons]
    obtain ⟨hrel1, hids1⟩ := malStep_rel now s stats x hn
    obtain ⟨hrel2, hids2⟩ := ih (malSyncFromRemoteStep now (s, stats) x).1
      (malSyncFromRemoteStep now (s, stats) x).2 (by rw [hids1]; exact hn)
    rw [Prod.mk.eta] at hrel2 hids2
    exact ⟨StoreRel_trans hrel1 hrel2, hids2.trans hids1⟩

/-- One pull step never decreases the error counter. -/
theorem malStep_errors_ge (now : Time) (s : Store) (stats : SyncStats)
    (e : UserAnimeEntry) :
    stats.errors ≤ (malSyncFromRemoteStep now (s, stats) e).2.errors := by
  rcases malStep_shape now s stats e with ⟨hcase, _⟩ | ⟨a, u, _, _, hbr⟩
  · rw [hcase]
    exact Nat.le_succ _
  · rcases hbr with ⟨_, hcase⟩ | ⟨_, hcase⟩ <;> rw [hcase]

/-- A pull loop never decreases the error counter. -/
theorem malRun_errors_ge (now : Time) :
    ∀ (l : List UserAnimeEntry) (s : Store) (stats : SyncStats),
    stats.errors ≤ (l.foldl (malSyncFromRemoteStep now) (s, stats)).2.errors := by
  intro l
  induction l with
  | nil => intro s stats; exact Nat.le_refl _
  | cons x xs ih =>
    intro s stats
    rw [List.foldl_cons]
    have h1 := malStep_errors_ge now s stats x
    have h2 := ih (malSyncFromRemoteStep now (s, stats) x).1
      (malSyncFromRemoteStep now (s, stats) x).2
    rw [Prod.mk.eta] at h2
    exact h1.trans h2

/-- When a pull loop reports no new error, every entry resolves through
the external-ID lookup at the starting store. -/
theorem malRun_errors_zero (now : Time) :
    ∀ (l : List UserAnimeEntry) (s : Store) (stats : SyncStats),
    (s.trackings.map (fun u => u.id)).Nodup →
    (l.foldl (malSyncFromRemoteStep now) (s, stats)).2.errors = stats.errors →
    ∀ e ∈ l, ∃ a, GetAnimeByExternalID s e.id "mal" = .ok a := by
  intro l
  induction l with
  | nil =>
    intro s stats _ _ e he
    cases he
  | cons x xs ih =>
    intro s stats hn hmain e he
    rw [List.foldl_cons] at hmain
    rcases malStep_shape now s stats x with ⟨hcase, _⟩ | ⟨a0, u0, hA0, hu0, hbr⟩
    · rw [hcase] at hmain
      have hge := malRun_errors_ge now xs s
        { stats with
            errors := stats.errors + 1,
            details := stats.details ++ ["Error checking anime " ++ x.title] }
      rw [hmain] at hge
      exact absurd hge (by simp)
    · have hs2 : (malSyncFromRemoteStep now (s, stats) x).2.errors = stats.errors := by
        rcases hbr with ⟨_, hc⟩ | ⟨_, hc⟩ <;> rw [hc]
      rcases List.mem_cons.mp he with rfl | hxs
      · exact ⟨a0, hA0⟩
      · obtain ⟨hrel1, hids1⟩ := malStep_rel now s stats x hn
        have hn1 : ((malSyncFromRemoteStep now (s, stats) x).1.trackings.map
            (fun u => u.id)).Nodup := by
          rw [hids1]; exact hn
        have hmain1 : (xs.foldl (malSyncFromRemoteStep now)
            ((malSyncFromRemoteStep now (s, stats) x).1,
              (malSyncFromRemoteStep now (s, stats) x).2)).2.errors =
            (malSyncFromRemoteStep now (s, stats) x).2.errors := by
          rw [Prod.mk.eta, hmain, hs2]
        obtain ⟨a, ha⟩ := ih _ _ hn1 hmain1 e hxs
        refine ⟨a, ?_⟩
        rw [← GetAnimeByExternalID_rel hrel1 e.id "mal"]
        exact ha

/-- After a pull loop whose pass time bounds every entry timestamp, every
entry whose lookups succeed on the resulting store resolves to a tracking
row at least as new as the entry. -/
theorem malRun_post (now : Time) :
    ∀ (l : List UserAnimeEntry) (s : Store) (stats : SyncStats),
    (s.trackings.map (fun u => u.id)).Nodup →
    (∀ e ∈ l, e.lastUpdated ≤ now) →
    ∀ e ∈ l, ∀ a u,
      GetAnimeByExternalID (l.foldl (malSyncFromRemoteStep now) (s, stats)).1
        e.id "mal" = .ok a →
      GetAnimeTracking (l.foldl (malSyncFromRemoteStep now) (s, stats)).1
        a.id "mal" = .ok u →
      e.lastUpdated ≤ u.lastUpdated := by
  intro l
  induction l with
  | nil =>
    intro s stats _ _ e he
    cases he
  | cons x xs ih =>
    intro s stats hn hts e he a u hA hu
    rw [List.foldl_cons] at hA hu
    obtain ⟨hrel1, hids1⟩ := malStep_rel now s stats x hn
    have hn1 : ((malSyncFromRemoteStep now (s, stats) x).1.trackings.map
        (fun u => u.id)).Nodup := by
      rw [hids1]; exact hn
    rw [show malSyncFromRemoteStep now (s, stats) x =
        ((malSyncFromRemoteStep now (s, stats) x).1,
          (malSyncFromRemoteStep now (s, stats) x).2) from (Prod.mk.eta).symm]
      at hA hu
    rcases List.mem_cons.mp he with rfl | hxs
    · obtain ⟨hrelrest, _⟩ := malRun_rel now xs
        (malSyncFromRemoteStep now (s, stats) e).1
        (malSyncFromRemoteStep now (s, stats) e).2 hn1
      rcases malStep_shape now s stats e with ⟨hcase, herr⟩ | ⟨a0, u0, hA0, hu0, hbr⟩
      · rw [GetAnimeByExternalID_rel hrelrest] at hA
        rw [show (malSyncFromRemoteStep now (s, stats) e).1 = s from by rw [hcase]] at hA
        rw [herr] at hA
        cases hA
      · have hchain1 : GetAnimeByExternalID
            (malSyncFromRemoteStep now (s, stats) e).1 e.id "mal" = .ok a0 := by
          rw [GetAnimeByExternalID_rel hrel1]
          exact hA0
        have hbound1 : ∃ v1, GetAnimeTracking
            (malSyncFromRemoteStep now (s, stats) e).1 a0.id "mal" = .ok v1 ∧
            e.lastUpdated ≤ v1.lastUpdated := by
          rcases hbr with ⟨hlt, hcase⟩ | ⟨hlt, hcase⟩
          · rw [show (malSyncFromRemoteStep now (s, stats) e).1 =
                UpdateAnimeTrackingObject s (pullPatch e u0) now from by rw [hcase]]
            rw [GetAnimeTracking_UpdateObject, hu0]
            refine ⟨_, rfl, ?_⟩
            dsimp only
            rw [if_pos (show u0.id = (pullPatch e u0).id from rfl)]
            simp only [writeTrackingFields]
            exact hts e (List.mem_cons_self _ _)
          · rw [show (malSyncFromRemoteStep now (s, stats) e).1 = s from by rw [hcase]]
            exact ⟨u0, hu0, le_of_not_lt hlt⟩
        rw [GetAnimeByExternalID_rel hrelrest, hchain1] at hA
        have ha : a0 = a := by cases hA; rfl
        subst ha
        obtain ⟨v1, hv1, hb1⟩ := hbound1
        rcases GetAnimeTracking_rel hrelrest a0.id "mal" with ⟨hnone, _⟩ | ⟨u1, v1x, h1x, h2x, hrx⟩
        · rw [hv1] at hnone
          cases hnone
        · rw [hv1] at h1x
          have : u1 = v1 := by cases h1x; rfl
          subst this
          rw [h2x] at hu
          have : v1x = u := by cases hu; rfl
          subst this
          rcases hrx.2.2.2.2 with rfl | hlu
          · exact hb1
          · rw [hlu]
            exact hts e (List.mem_cons_self _ _)
    · exact ih _ _ hn1 (fun e1 he1 => hts e1 (List.mem_cons_of_mem _ he1)) e hxs a u hA hu

/-- Writing the watermark does not change what the external-ID lookup
sees. -/
theorem GetAnimeByExternalID_setWM (x : Store) (v : Option Time) (eid tr : String) :
    GetAnimeByExternalID { x with malLastSync := v } eid tr =
      GetAnimeByExternalID x eid tr := rfl

/-- Writing the watermark does not change what the tracking lookup
sees. -/
theorem GetAnimeTracking_setWM (x : Store) (v : Option Time) (aid : Int) (tr : String) :
    GetAnimeTracking { x with malLastSync := v } aid tr =
      GetAnimeTracking x aid tr := rfl

/-- A pull loop in which every entry resolves to a tracking row at least
as new as the entry neither writes the store nor counts anything Added or
Updated. -/
theorem malRun2_no_write (now : Time) :
    ∀ (l : List UserAnimeEntry) (s : Store) (stats : SyncStats),
    (∀ e ∈ l, ∀ a u, GetAnimeByExternalID s e.id "mal" = .ok a →
      GetAnimeTracking s a.id "mal" = .ok u → e.lastUpdated ≤ u.lastUpdated) →
    (l.foldl (malSyncFromRemoteStep now) (s, stats)).1 = s ∧
    (l.foldl (malSyncFromRemoteStep now) (s, stats)).2.added = stats.added ∧
    (l.foldl (malSyncFromRemoteStep now) (s, stats)).2.updated = stats.updated := by
  intro l
  induction l with
  | nil =>
    intro s stats _
    exact ⟨rfl, rfl, rfl⟩
  | cons x xs ih =>
    intro s stats hyp
    have htail : ∀ e ∈ xs, ∀ a u, GetAnimeByExternalID s e.id "mal" = .ok a →
        GetAnimeTracking s a.id "mal" = .ok u → e.lastUpdated ≤ u.lastUpdated :=
      fun e he => hyp e (List.mem_cons_of_mem _ he)
    rw [List.foldl_cons]
    rcases malStep_shape now s stats x with ⟨hcase, _⟩ | ⟨a0, u0, hA0, hu0, hbr⟩
    · rw [hcase]
      obtain ⟨h1, h2, h3⟩ := ih s
        { stats with
            errors := stats.errors + 1,
            details := stats.details ++ ["Error checking anime " ++ x.title] } htail
      exact ⟨h1, h2, h3⟩
    · rcases hbr with ⟨hlt, _⟩ | ⟨_, hcase⟩
      · exact absurd hlt (not_lt.mpr
          (hyp x (List.mem_cons_self _ _) a0 u0 hA0 hu0))
      · rw [hcase]
        obtain ⟨h1, h2, h3⟩ := ih s
          { stats with skipped := stats.skipped + 1 } htail
        exact ⟨h1, h2, h3⟩

/-- A pull loop in which every entry resolves through both lookups to a
tracking row at least as new as the entry leaves the store untouched and
counts every entry Skipped. -/
theorem malRun2_all_skip (now : Time) :
    ∀ (l : List UserAnimeEntry) (s : Store) (stats : SyncStats),
    (∀ e ∈ l, ∃ a u, GetAnimeByExternalID s e.id "mal" = .ok a ∧
      GetAnimeTracking s a.id "mal" = .ok u ∧ e.lastUpdated ≤ u.lastUpdated) →
    l.foldl (malSyncFromRemoteStep now) (s, stats) =
      (s, { stats with skipped := stats.skipped + l.length }) := by
  intro l
  induction l with
  | nil =>
    intro s stats _
    simp
  | cons x xs ih =>
    intro s stats hyp
    obtain ⟨a0, u0, hA0, hu0, hle⟩ := hyp x (List.mem_cons_self _ _)
    rw [List.foldl_cons]
    rcases malStep_shape now s stats x with ⟨_, herr⟩ | ⟨a1, u1, hA1, hu1, hbr⟩
    · rw [herr] at hA0
      cases hA0
    · have ha01 : a1 = a0 := by
        rw [hA1] at hA0
        cases hA0
        rfl
      subst ha01
      have hu01 : u1 = u0 := by
        rw [hu1] at hu0
        cases hu0
        rfl
      subst hu01
      rcases hbr with ⟨hlt, _⟩ | ⟨_, hcase⟩
      · exact absurd hlt (not_lt.mpr hle)
      · rw [hcase]
        rw [ih s { stats with skipped := stats.skipped + 1 }
          (fun e he => hyp e (List.mem_cons_of_mem _ he))]
        show (s, ({ stats with skipped := stats.skipped + 1 + xs.length } : SyncStats)) =
          (s, { stats with skipped := stats.skipped + (x :: xs).length })
        rw [List.length_cons]
        have harith : stats.skipped + 1 + xs.length = stats.skipped + (xs.length + 1) := by
          omega
        rw [harith]

/-- Claim C5 (amended): when no remote entry carries a timestamp in the
future of the first pass (and tracking row ids are unique, the table's
primary key), running the pull pass twice over an unchanged snapshot
yields a second run with Added = 0 and Updated = 0; when additionally the
first run reported no errors, every entry of the second run is counted
Skipped. -/
theorem claim_C5_amended_pull_idempotent_without_future_timestamps :
    ∀ (s : Store) (entries : List UserAnimeEntry) (now1 now2 : Time),
    (s.trackings.map (fun u => u.id)).Nodup →
    (∀ e ∈ entries, e.lastUpdated ≤ now1) →
    (MALTracker.SyncFromRemote
        (MALTracker.SyncFromRemote s entries now1).1 entries now2).2.added = 0 ∧
    (MALTracker.SyncFromRemote
        (MALTracker.SyncFromRemote s entries now1).1 entries now2).2.updated = 0 ∧
    ((MALTracker.SyncFromRemote s entries now1).2.errors = 0 →
      (MALTracker.SyncFromRemote
        (MALTracker.SyncFromRemote s entries now1).1 entries now2).2.skipped =
        entries.length) := by
  intro s entries now1 now2 hn hts
  have hpost := malRun_post now1 entries s SyncStats.start hn hts
  have hyp2 : ∀ e ∈ entries, ∀ a u,
      GetAnimeByExternalID (MALTracker.SyncFromRemote s entries now1).1 e.id "mal" = .ok a →
      GetAnimeTracking (MALTracker.SyncFromRemote s entries now1).1 a.id "mal" = .ok u →
      e.lastUpdated ≤ u.lastUpdated := by
    intro e he a u hA hu
    rw [show (MALTracker.SyncFromRemote s entries now1).1 =
        { (entries.foldl (malSyncFromRemoteStep now1) (s, SyncStats.start)).1 with
            malLastSync := some now1 } from rfl] at hA hu
    rw [GetAnimeByExternalID_setWM] at hA
    rw [GetAnimeTracking_setWM] at hu
    exact hpost e he a u hA hu
  obtain ⟨_, hadd, hupd⟩ := malRun2_no_write now2 entries
    (MALTracker.SyncFromRemote s entries now1).1 SyncStats.start hyp2
  refine ⟨?_, ?_, ?_⟩
  · rw [show (MALTracker.SyncFromRemote
        (MALTracker.SyncFromRemote s entries now1).1 entries now2).2 =
        (entries.foldl (malSyncFromRemoteStep now2)
          ((MALTracker.SyncFromRemote s entries now1).1, SyncStats.start)).2 from rfl]
    rw [hadd]
    rfl
  · rw [show (MALTracker.SyncFromRemote
        (MALTracker.SyncFromRemote s entries now1).1 entries now2).2 =
        (entries.foldl (malSyncFromRemoteStep now2)
          ((MALTracker.SyncFromRemote s entries now1).1, SyncStats.start)).2 from rfl]
    rw [hupd]
    rfl
  · intro herr0
    have herrfold : (entries.foldl (malSyncFromRemoteStep now1)
        (s, SyncStats.start)).2.errors = SyncStats.start.errors := by
      rw [show (MALTracker.SyncFromRemote s entries now1).2 =
          (entries.foldl (malSyncFromRemoteStep now1) (s, SyncStats.start)).2 from rfl]
        at herr0
      exact herr0
    have hok := malRun_errors_zero now1 entries s SyncStats.start hn herrfold
    obtain ⟨hrel1, _⟩ := malRun_rel now1 entries s SyncStats.start hn
    have hyp3 : ∀ e ∈ entries, ∃ a u,
        GetAnimeByExternalID (MALTracker.SyncFromRemote s entries now1).1 e.id "mal" = .ok a ∧
        GetAnimeTracking (MALTracker.SyncFromRemote s entries now1).1 a.id "mal" = .ok u ∧
        e.lastUpdated ≤ u.lastUpdated := by
      intro e he
      obtain ⟨a, ha⟩ := hok e he
      have hafold : GetAnimeByExternalID
          (MALTracker.SyncFromRemote s entries now1).1 e.id "mal" = .ok a := by
        rw [show (MALTracker.SyncFromRemote s entries now1).1 =
            { (entries.foldl (malSyncFromRemoteStep now1) (s, SyncStats.start)).1 with
                malLastSync := some now1 } from rfl]
        rw [GetAnimeByExternalID_setWM]
        rw [GetAnimeByExternalID_rel hrel1]
        exact ha
      obtain ⟨u, hu⟩ := GetAnimeTracking_of_byExternal hafold
      exact ⟨a, u, hafold, hu, hyp2 e he a u hafold hu⟩
    have hallskip := malRun2_all_skip now2 entries
      (MALTracker.SyncFromRemote s entries now1).1 SyncStats.start hyp3
    rw [show (MALTracker.SyncFromRemote
        (MALTracker.SyncFromRemote s entries now1).1 entries now2).2 =
        (entries.foldl (malSyncFromRemoteStep now2)
          ((MALTracker.SyncFromRemote s entries now1).1, SyncStats.start)).2 from rfl]
    rw [hallskip]
    simp [SyncStats.start]

/-- Witness for the amended C5 on the concrete store `c1Store` and a
one-entry snapshot dated 5, before the pass time 10: the second run adds
and updates nothing and skips the single entry. -/
theorem claim_C5_amended_pull_idempotent_witness :
    (MALTracker.SyncFromRemote
        (MALTracker.SyncFromRemote c1Store [c1Entry] 10).1 [c1Entry] 11).2.added = 0 ∧
    (MALTracker.SyncFromRemote
        (MALTracker.SyncFromRemote c1Store [c1Entry] 10).1 [c1Entry] 11).2.updated = 0 ∧
    (MALTracker.SyncFromRemote
        (MALTracker.SyncFromRemote c1Store [c1Entry] 10).1 [c1Entry] 11).2.skipped = 1 := by
  have h := claim_C5_amended_pull_idempotent_without_future_timestamps
    c1Store [c1Entry] 10 11 (by decide)
    (by
      intro e he
      have : e = c1Entry := by simpa using he
      subst this
      decide)
  exact ⟨h.1, h.2.1, h.2.2 (by decide)⟩

/-- The tracking upsert never touches the anime table. -/
theorem AddAnimeTracking_anime (st : Store) (t : AnimeTracking) (now : Time) :
    (AddAnimeTracking st t now).anime = st.anime := by
  rw [AddAnimeTracking]
  split <;> rfl

/-- Effect of the tracking upsert on rows: every old row survives with
its `(animeId, tracker)` key, either untouched or rekeyed to the upserted
external ID, and every resulting row is an old row or carries the
upserted external ID. -/
theorem AddAnimeTracking_rows (st : Store) (t : AnimeTracking) (now : Time) :
    (∀ w ∈ st.trackings, ∃ w1 ∈ (AddAnimeTracking st t now).trackings,
      w1.animeId = w.animeId ∧ w1.tracker = w.tracker ∧
        (w1 = w ∨ w1.trackerId = t.trackerId)) ∧
    (∀ v ∈ (AddAnimeTracking st t now).trackings,
      v ∈ st.trackings ∨ v.trackerId = t.trackerId) := by
  rw [AddAnimeTracking]
  split
  · constructor
    · intro w hw
      refine ⟨if w.animeId = t.animeId ∧ w.tracker = t.tracker then
          writeTrackingFields t now w else w, List.mem_map_of_mem _ hw, ?_⟩
      by_cases hc : w.animeId = t.animeId ∧ w.tracker = t.tracker
      · rw [if_pos hc]
        exact ⟨rfl, rfl, Or.inr rfl⟩
      · rw [if_neg hc]
        exact ⟨rfl, rfl, Or.inl rfl⟩
    · intro v hv
      obtain ⟨w, hw, hvw⟩ := List.mem_map.mp hv
      by_cases hc : w.animeId = t.animeId ∧ w.tracker = t.tracker
      · rw [if_pos hc] at hvw
        exact Or.inr (by rw [← hvw]; rfl)
      · rw [if_neg hc] at hvw
        exact Or.inl (hvw ▸ hw)
  · constructor
    · intro w hw
      exact ⟨w, List.mem_append_left _ hw, rfl, rfl, Or.inl rfl⟩
    · intro v hv
      rcases List.mem_append.mp hv with h | h
      · exact Or.inl h
      · right
        have : v = { t with id := st.nextTrackingId, lastUpdated := now } := by
          simpa using h
        rw [this]

/-- Effect of processing one remote entry: the anime table is only
extended, every old tracking row survives with its `(animeId, tracker)`
key, and every resulting tracking row is an old row or carries the
processed entry's external ID. -/
theorem processRemoteEntry_facts (st : Store) (e : UserAnimeEntry) (tr : String)
    (snapshot : List AnimeTracking) (now : Time) :
    (∀ a ∈ st.anime, a ∈ (processRemoteEntry st e tr snapshot now).1.anime) ∧
    (∀ w ∈ st.trackings, ∃ w1 ∈ (processRemoteEntry st e tr snapshot now).1.trackings,
      w1.animeId = w.animeId ∧ w1.tracker = w.tracker) ∧
    (∀ v ∈ (processRemoteEntry st e tr snapshot now).1.trackings,
      v ∈ st.trackings ∨ v.trackerId = e.id) := by
  rw [processRemoteEntry]
  cases hA : GetAnimeByExternalID st e.id tr with
  | error err =>
    dsimp only
    by_cases herr : err ≠ DBErr.animeNotFound
    · rw [if_pos herr]
      exact ⟨fun a ha => ha, fun w hw => ⟨w, hw, rfl, rfl⟩, fun v hv => Or.inl hv⟩
    · rw [if_neg herr]
      obtain ⟨hrows, hprov⟩ := AddAnimeTracking_rows (AddAnime st
        ⟨0, e.title, e.englishTitle, e.alternativeTitles, e.synopsis, e.episodes,
          e.type, e.year, e.season, e.status, e.genres, e.imageURL⟩).1
        ⟨0, (AddAnime st _).2, tr, e.id, e.status, e.score, e.progress,
          e.episodes, e.lastUpdated⟩ now
      refine ⟨?_, ?_, ?_⟩
      · intro a ha
        rw [AddAnimeTracking_anime]
        exact List.mem_append_left _ ha
      · intro w hw
        obtain ⟨w1, hw1, he1, he2, _⟩ := hrows w hw
        exact ⟨w1, hw1, he1, he2⟩
      · intro v hv
        rcases hprov v hv with h | h
        · exact Or.inl h
        · exact Or.inr h
  | ok anime =>
    dsimp only
    unfold syncExistingEntry
    cases hml : mapLookupLast snapshot e.id with
    | none =>
      dsimp only
      obtain ⟨hrows, hprov⟩ := AddAnimeTracking_rows st
        ⟨0, anime.id, tr, e.id, e.status, e.score, e.progress, e.episodes,
          e.lastUpdated⟩ now
      refine ⟨?_, ?_, ?_⟩
      · intro a ha
        rw [AddAnimeTracking_anime]
        exact ha
      · intro w hw
        obtain ⟨w1, hw1, he1, he2, _⟩ := hrows w hw
        exact ⟨w1, hw1, he1, he2⟩
      · exact hprov
    | some localTracking =>
      dsimp only
      by_cases h1 : e.lastUpdated > localTracking.lastUpdated
      · rw [if_pos h1]
        obtain ⟨hrows, hprov⟩ := AddAnimeTracking_rows st
          ⟨0, anime.id, tr, e.id, e.status, e.score, e.progress, e.episodes,
            e.lastUpdated⟩ now
        refine ⟨?_, ?_, ?_⟩
        · intro a ha
          rw [AddAnimeTracking_anime]
          exact ha
        · intro w hw
          obtain ⟨w1, hw1, he1, he2, _⟩ := hrows w hw
          exact ⟨w1, hw1, he1, he2⟩
        · exact hprov
      · rw [if_neg h1]
        by_cases h2 : localTracking.lastUpdated > e.lastUpdated ∧
            localTracking.currentEpisode > e.progress
        · rw [if_pos h2]
          exact ⟨fun a ha => ha, fun w hw => ⟨w, hw, rfl, rfl⟩, fun v hv => Or.inl hv⟩
        · rw [if_neg h2]
          exact ⟨fun a ha => ha, fun w hw => ⟨w, hw, rfl, rfl⟩, fun v hv => Or.inl hv⟩

/-- The store component of the processing loop ignores the accumulated
push-call list. -/
theorem processPair_fst (tr : String) (snapshot : List AnimeTracking) (now : Time) :
    ∀ (entries : List UserAnimeEntry) (st : Store) (acc : List PushCall),
    (entries.foldl (fun acc e =>
        ((processRemoteEntry acc.1 e tr snapshot now).1,
          acc.2 ++ (processRemoteEntry acc.1 e tr snapshot now).2)) (st, acc)).1
      = processFoldStore tr snapshot now entries st := by
  intro entries
  induction entries with
  | nil =>
    intro st acc
    rfl
  | cons e es ih =>
    intro st acc
    exact ih (processRemoteEntry st e tr snapshot now).1 _

/-- Fold form of `processRemoteEntry_facts` over a whole processing pass:
anime rows are only extended, `(animeId, tracker)` keys of tracking rows
survive, and every final tracking row is an original row or carries the
external ID of some processed entry. -/
theorem processFoldStore_facts (tr : String) (snapshot : List AnimeTracking) (now : Time) :
    ∀ (entries : List UserAnimeEntry) (st : Store),
    (∀ a ∈ st.anime, a ∈ (processFoldStore tr snapshot now entries st).anime) ∧
    (∀ w ∈ st.trackings, ∃ w1 ∈ (processFoldStore tr snapshot now entries st).trackings,
      w1.animeId = w.animeId ∧ w1.tracker = w.tracker) ∧
    (∀ v ∈ (processFoldStore tr snapshot now entries st).trackings,
      v ∈ st.trackings ∨ ∃ e ∈ entries, v.trackerId = e.id) := by
  intro entries
  induction entries with
  | nil =>
    intro st
    exact ⟨fun a ha => ha, fun w hw => ⟨w, hw, rfl, rfl⟩, fun v hv => Or.inl hv⟩
  | cons e es ih =>
    intro st
    obtain ⟨sa, sw, sv⟩ := processRemoteEntry_facts st e tr snapshot now
    obtain ⟨fa, fw, fv⟩ := ih (processRemoteEntry st e tr snapshot now).1
    refine ⟨?_, ?_, ?_⟩
    · intro a ha
      exact fa a (sa a ha)
    · intro w hw
      obtain ⟨w1, hw1, h1, h2⟩ := sw w hw
      obtain ⟨w2, hw2, g1, g2⟩ := fw w1 hw1
      exact ⟨w2, hw2, g1.trans h1, g2.trans h2⟩
    · intro v hv
      rcases fv v hv with h | ⟨e1, he1, hid⟩
      · rcases sv v h with h1 | h1
        · exact Or.inl h1
        · exact Or.inr ⟨e, List.mem_cons_self e es, h1⟩
      · exact Or.inr ⟨e1, List.mem_cons_of_mem e he1, hid⟩

/-- `DeleteAnime` leaves tracking rows alone (the `ON DELETE CASCADE` of
the schema is inert because the `foreign_keys` pragma is never enabled). -/
theorem DeleteAnime_trackings (s : Store) (id : Int) :
    (DeleteAnime s id).trackings = s.trackings := rfl

/-- One deletion step only removes rows: both tables shrink. -/
theorem delStep_subset (entries : List UserAnimeEntry) (tr : String)
    (st : Store) (t : AnimeTracking) :
    (∀ u ∈ (delStep entries tr st t).trackings, u ∈ st.trackings) ∧
    (∀ a ∈ (delStep entries tr st t).anime, a ∈ st.anime) := by
  rw [delStep]
  split
  · exact ⟨fun u hu => hu, fun a ha => ha⟩
  · rw [deleteLocalEntry]
    constructor
    · intro u hu
      have hu1 : u ∈ (DeleteAnimeTracking st t.animeId tr).trackings := by
        by_cases hz : (GetAllAnimeTracking (DeleteAnimeTracking st t.animeId tr)
            t.animeId).length = 0
        · rw [if_pos hz] at hu
          exact hu
        · rw [if_neg hz] at hu
          exact hu
      exact List.mem_of_mem_filter hu1
    · intro a ha
      by_cases hz : (GetAllAnimeTracking (DeleteAnimeTracking st t.animeId tr)
          t.animeId).length = 0
      · rw [if_pos hz] at ha
        exact List.mem_of_mem_filter ha
      · rw [if_neg hz] at ha
        exact ha

/-- Fold form of `delStep_subset`: the deletion loop only removes rows. -/
theorem delFold_subset (entries : List UserAnimeEntry) (tr : String) :
    ∀ (L : List AnimeTracking) (st : Store),
    (∀ u ∈ (L.foldl (delStep entries tr) st).trackings, u ∈ st.trackings) ∧
    (∀ a ∈ (L.foldl (delStep entries tr) st).anime, a ∈ st.anime) := by
  intro L
  induction L with
  | nil =>
    intro st
    exact ⟨fun u hu => hu, fun a ha => ha⟩
  | cons t L ih =>
    intro st
    obtain ⟨iu, ia⟩ := ih (delStep entries tr st t)
    obtain ⟨su, sa⟩ := delStep_subset entries tr st t
    exact ⟨fun u hu => su u (iu u hu), fun a ha => sa a (ia a ha)⟩

/-- `deleteLocalEntry` leaves no tracking row carrying the deleted
`(animeId, tracker)` key. -/
theorem deleteLocalEntry_removes (st : Store) (t : AnimeTracking) (tr : String) :
    ∀ u ∈ (deleteLocalEntry st t tr).trackings,
      ¬(u.animeId = t.animeId ∧ u.tracker = tr) := by
  rw [deleteLocalEntry]
  intro u hu
  have hu1 : u ∈ (DeleteAnimeTracking st t.animeId tr).trackings := by
    by_cases hz : (GetAllAnimeTracking (DeleteAnimeTracking st t.animeId tr)
        t.animeId).length = 0
    · rw [if_pos hz] at hu
      exact hu
    · rw [if_neg hz] at hu
      exact hu
  have h2 := (List.mem_filter.mp hu1).2
  simp only [Bool.not_eq_true', decide_eq_false_iff_not] at h2
  exact h2

/-- Once the deletion loop has processed a map entry whose key is absent
from the remote snapshot, no tracking row for that `(animeId, tracker)`
key survives to the end of the loop. -/
theorem delFold_removes (entries : List UserAnimeEntry) (tr : String) :
    ∀ (L : List AnimeTracking) (st : Store) (v : AnimeTracking),
    v ∈ L → remoteHas entries v.trackerId = false →
    ∀ u ∈ (L.foldl (delStep entries tr) st).trackings,
      ¬(u.animeId = v.animeId ∧ u.tracker = tr) := by
  intro L
  induction L with
  | nil =>
    intro st v hv
    cases hv
  | cons t L ih =>
    intro st v hv hrh u hu
    rcases List.mem_cons.mp hv with rfl | hv1
    · have hu1 : u ∈ (delStep entries tr st v).trackings :=
        (delFold_subset entries tr L _).1 u hu
      rw [delStep, if_neg (by simp [hrh])] at hu1
      exact deleteLocalEntry_removes st v tr u hu1
    · exact ih (delStep entries tr st t) v hv1 hrh u hu

/-- One deletion step preserves the presence invariant: an anime id is in
the anime table iff some tracking row references it. -/
theorem delStep_presence (entries : List UserAnimeEntry) (tr : String)
    (st : Store) (t : AnimeTracking) (aid : Int)
    (hI : (∃ a ∈ st.anime, a.id = aid) ↔ (∃ u ∈ st.trackings, u.animeId = aid)) :
    ((∃ a ∈ (delStep entries tr st t).anime, a.id = aid) ↔
      (∃ u ∈ (delStep entries tr st t).trackings, u.animeId = aid)) := by
  rw [delStep]
  split
  · exact hI
  · rw [deleteLocalEntry]
    by_cases hz : (GetAllAnimeTracking (DeleteAnimeTracking st t.animeId tr)
        t.animeId).length = 0
    · rw [if_pos hz]
      by_cases hta : t.animeId = aid
      · constructor
        · rintro ⟨a, ha, haid⟩
          exfalso
          have := (List.mem_filter.mp ha).2
          rw [haid, ← hta] at this
          simp at this
        · rintro ⟨u, hu, huid⟩
          exfalso
          rw [DeleteAnime_trackings] at hu
          have hmem : u ∈ GetAllAnimeTracking (DeleteAnimeTracking st t.animeId tr)
              t.animeId :=
            List.mem_filter.mpr ⟨hu, by simp [huid, hta]⟩
          rw [List.length_eq_zero] at hz
          rw [hz] at hmem
          cases hmem
      · constructor
        · rintro ⟨a, ha, haid⟩
          have ha1 : a ∈ st.anime := List.mem_of_mem_filter ha
          obtain ⟨u, hu, huid⟩ := hI.mp ⟨a, ha1, haid⟩
          refine ⟨u, ?_, huid⟩
          rw [DeleteAnime_trackings]
          refine List.mem_filter.mpr ⟨hu, ?_⟩
          simp only [Bool.not_eq_true', decide_eq_false_iff_not]
          rintro ⟨h1, _⟩
          exact hta (h1.symm.trans huid)
        · rintro ⟨u, hu, huid⟩
          rw [DeleteAnime_trackings] at hu
          have hu1 : u ∈ st.trackings := List.mem_of_mem_filter hu
          obtain ⟨a, ha, haid⟩ := hI.mpr ⟨u, hu1, huid⟩
          refine ⟨a, ?_, haid⟩
          refine List.mem_filter.mpr ⟨ha, ?_⟩
          simp only [Bool.not_eq_true', decide_eq_false_iff_not]
          intro h1
          exact hta (h1.symm.trans haid)
    · rw [if_neg hz]
      by_cases hta : t.animeId = aid
      · have hne : GetAllAnimeTracking (DeleteAnimeTracking st t.animeId tr)
            t.animeId ≠ [] := by
          intro h
          exact hz (by rw [h]; rfl)
        obtain ⟨u, hu⟩ := List.exists_mem_of_ne_nil _ hne
        have huid : u.animeId = t.animeId := by
          simpa using (List.mem_filter.mp hu).2
        have hu1 : u ∈ (DeleteAnimeTracking st t.animeId tr).trackings :=
          List.mem_of_mem_filter hu
        constructor
        · intro _
          exact ⟨u, hu1, huid.trans hta⟩
        · intro _
          have hust : u ∈ st.trackings := List.mem_of_mem_filter hu1
          exact hI.mpr ⟨u, hust, huid.trans hta⟩
      · constructor
        · rintro ⟨a, ha, haid⟩
          obtain ⟨u, hu, huid⟩ := hI.mp ⟨a, ha, haid⟩
          refine ⟨u, ?_, huid⟩
          refine List.mem_filter.mpr ⟨hu, ?_⟩
          simp only [Bool.not_eq_true', decide_eq_false_iff_not]
          rintro ⟨h1, _⟩
          exact hta (h1.symm.trans huid)
        · rintro ⟨u, hu, huid⟩
          exact hI.mpr ⟨u, List.mem_of_mem_filter hu, huid⟩

/-- Fold form of `delStep_presence`: the deletion loop preserves the
presence invariant. -/
theorem delFold_presence (entries : List UserAnimeEntry) (tr : String) (aid : Int) :
    ∀ (L : List AnimeTracking) (st : Store),
    ((∃ a ∈ st.anime, a.id = aid) ↔ (∃ u ∈ st.trackings, u.animeId = aid)) →
    ((∃ a ∈ (L.foldl (delStep entries tr) st).anime, a.id = aid) ↔
      (∃ u ∈ (L.foldl (delStep entries tr) st).trackings, u.animeId = aid)) := by
  intro L
  induction L with
  | nil =>
    intro st hI
    exact hI
  | cons t L ih =>
    intro st hI
    exact ih (delStep entries tr st t) (delStep_presence entries tr st t aid hI)

/-- Under unique keys, `find?` on the key of a member returns that member. -/
theorem find_unique_key :
    ∀ (l : List AnimeTracking),
    (l.map (fun t => t.trackerId)).Nodup →
    ∀ v ∈ l, l.find? (fun t => decide (t.trackerId = v.trackerId)) = some v := by
  intro l
  induction l with
  | nil =>
    intro _ v hv
    cases hv
  | cons x xs ih =>
    intro hn v hv
    rw [List.map_cons, List.nodup_cons] at hn
    rcases List.mem_cons.mp hv with rfl | hvs
    · exact List.find?_cons_of_pos _ (by simp)
    · have hx : ¬(x.trackerId = v.trackerId) := by
        intro he
        exact hn.1 (by rw [he]; exact List.mem_map_of_mem _ hvs)
      rw [List.find?_cons_of_neg _ (by simpa using hx)]
      exact ih hn.2 v hvs

/-- Under unique keys every snapshot row is an entry of the Go map built
from the snapshot (it is the last — indeed only — row with its key). -/
theorem mem_mapEntries_of_nodup (snapshot : List AnimeTracking)
    (hn : (snapshot.map (fun t => t.trackerId)).Nodup)
    (v : AnimeTracking) (hv : v ∈ snapshot) : v ∈ mapEntries snapshot := by
  have hrev : (snapshot.reverse.map (fun t => t.trackerId)).Nodup := by
    rw [List.map_reverse]
    exact List.nodup_reverse.mpr hn
  have hfind : mapLookupLast snapshot v.trackerId = some v := by
    rw [mapLookupLast]
    exact find_unique_key snapshot.reverse hrev v (List.mem_reverse.mpr hv)
  rw [mapEntries]
  exact List.mem_filter.mpr ⟨hv, by rw [hfind]; simp⟩

/-- The store a full `syncWithSingleTracker` pass produces, decomposed
into the processing fold followed by the deletion fold. -/
theorem syncWithSingleTracker_fst (s : Store) (tr : String)
    (entries : List UserAnimeEntry) (now : Time) :
    (syncWithSingleTracker s tr entries now).1 =
      (mapEntries (GetAllAnimeTrackingByTracker s tr)).foldl (delStep entries tr)
        (processFoldStore tr (GetAllAnimeTrackingByTracker s tr) now entries s) := by
  rw [syncWithSingleTracker]
  dsimp only
  rw [processPair_fst]
  rfl

/-- C3: after a pull pass of `syncWithSingleTracker` (assuming the primary
key uniqueness of external IDs per tracker, and no pre-existing orphan
anime rows), (a) every local tracking row of the synced tracker whose
external ID is absent from the remote snapshot has been deleted — i.e.
every surviving row of that tracker has its external ID present remotely —
and (b) for every anime present at the start, its anime row is deleted iff
its tracking-row count across all trackers reaches zero. -/
theorem claim_C3_absent_rows_deleted_cascade_iff_zero (s : Store) (tr : String)
    (entries : List UserAnimeEntry) (now : Time)
    (hU : UniqueExternalIDs s tr) (hO : NoOrphanAnime s) :
    (∀ v ∈ (syncWithSingleTracker s tr entries now).1.trackings,
      v.tracker = tr → remoteHas entries v.trackerId = true) ∧
    (∀ aid : Int, (∃ a ∈ s.anime, a.id = aid) →
      ((∃ a ∈ (syncWithSingleTracker s tr entries now).1.anime, a.id = aid) ↔
        (∃ u ∈ (syncWithSingleTracker s tr entries now).1.trackings,
          u.animeId = aid))) := by
  obtain ⟨fa, fw, fv⟩ :=
    processFoldStore_facts tr (GetAllAnimeTrackingByTracker s tr) now entries s
  constructor
  · intro v hv hvtr
    rw [syncWithSingleTracker_fst] at hv
    by_contra hfalse
    have hrf : remoteHas entries v.trackerId = false := by
      cases h : remoteHas entries v.trackerId
      · rfl
      · exact absurd h hfalse
    have hv1 : v ∈ (processFoldStore tr (GetAllAnimeTrackingByTracker s tr)
        now entries s).trackings :=
      (delFold_subset entries tr _ _).1 v hv
    rcases fv v hv1 with hvs | ⟨e, he, hid⟩
    · have hsnap : v ∈ GetAllAnimeTrackingByTracker s tr :=
        List.mem_filter.mpr ⟨hvs, by simp [hvtr]⟩
      have hmape : v ∈ mapEntries (GetAllAnimeTrackingByTracker s tr) :=
        mem_mapEntries_of_nodup _ hU v hsnap
      exact delFold_removes entries tr _ _ v hmape hrf v hv ⟨rfl, hvtr⟩
    · have hhit : remoteHas entries v.trackerId = true :=
        List.any_eq_true.mpr ⟨e, he, by simp [hid]⟩
      rw [hhit] at hrf
      cases hrf
  · intro aid hpres
    rw [syncWithSingleTracker_fst]
    apply delFold_presence
    constructor
    · intro _
      obtain ⟨a, ha, haid⟩ := hpres
      obtain ⟨u, hu, huid⟩ := hO a ha
      obtain ⟨w1, hw1, g1, _⟩ := fw u hu
      exact ⟨w1, hw1, by rw [g1, huid, haid]⟩
    · intro _
      obtain ⟨a, ha, haid⟩ := hpres
      exact ⟨a, fa a ha, haid⟩

/-- Concrete run of the C3 theorem: one anime with one `svcA` tracking row,
empty remote snapshot — the pass deletes the row and cascades the anime. -/
theorem claim_C3_absent_rows_deleted_cascade_iff_zero_witness :
    UniqueExternalIDs c3Store "svcA" ∧ NoOrphanAnime c3Store ∧
    ((∃ a ∈ (syncWithSingleTracker c3Store "svcA" [] 10).1.anime, a.id = 1) ↔
      (∃ u ∈ (syncWithSingleTracker c3Store "svcA" [] 10).1.trackings,
        u.animeId = 1)) := by
  have hU : UniqueExternalIDs c3Store "svcA" := by
    unfold UniqueExternalIDs
    decide
  have hO : NoOrphanAnime c3Store := by
    unfold NoOrphanAnime
    decide
  refine ⟨hU, hO, ?_⟩
  exact (claim_C3_absent_rows_deleted_cascade_iff_zero c3Store "svcA" [] 10
    hU hO).2 1 (by decide)

end Pair
